import Mathlib

/-!
Verification development for the `simple-markdown` engine (src/index.jsx):
a shallow embedding of its preprocessor, regex-driven rule matching,
parser dispatcher, default rule set and HTML output, together with
theorems about the behaviour documented in the specification.

JS strings are modelled as `List Char`; JS numbers used for rule
`order`/`quality` are modelled as `ℚ` (they are small literals and
`capture[0].length + 0.2`-style sums, for which float and rational
comparison agree); fallible operations return `Option`/`Except`.
-/

namespace SM

/-- JS `\s` (whitespace) character set, as used by `\s` in regexes and
`String.prototype.trim`: space, tab, LF, VT, FF, CR, NBSP and the
Unicode space separators plus BOM. -/
def jsSpace (c : Char) : Bool :=
  c = ' ' || c = '\t' || c = '\n' || c.toNat = 0xb || c.toNat = 0xc ||
  c = '\r' || c.toNat = 0xa0 || c.toNat = 0x1680 ||
  (0x2000 ≤ c.toNat && c.toNat ≤ 0x200a) ||
  c.toNat = 0x2028 || c.toNat = 0x2029 || c.toNat = 0x202f ||
  c.toNat = 0x205f || c.toNat = 0x3000 || c.toNat = 0xfeff

/-- JS `\w`: `[A-Za-z0-9_]`. -/
def jsWord (c : Char) : Bool :=
  ('a' ≤ c && c ≤ 'z') || ('A' ≤ c && c ≤ 'Z') || ('0' ≤ c && c ≤ '9') || c = '_'

/-- JS `\d`: `[0-9]`. -/
def jsDigit (c : Char) : Bool := '0' ≤ c && c ≤ '9'

/-- The backtick character (written numerically throughout). -/
def btick : Char := Char.ofNat 96

/--
`preprocess` from the source:
`source.replace(/\r\n?/g,'\n').replace(/\f/g,'').replace(/\t/g,'    ')`.
The three global replaces are fused into one scan; this is equivalent
because the three patterns match disjoint characters (`\r`, `\f`, `\t`)
and none of the replacement texts contains one of those characters.
-/
def preprocess : List Char → List Char
  | [] => []
  | '\r' :: '\n' :: rest => '\n' :: preprocess rest
  | '\r' :: rest => '\n' :: preprocess rest
  | '\x0c' :: rest => preprocess rest
  | '\t' :: rest => ' ' :: ' ' :: ' ' :: ' ' :: preprocess rest
  | c :: rest => c :: preprocess rest

/-- JS `String.prototype.trim`: strip `\s` characters from both ends. -/
def jsTrim (l : List Char) : List Char :=
  (l.dropWhile jsSpace).reverse.dropWhile jsSpace |>.reverse

/-! ## Regex engine

A small backtracking matcher in continuation-passing style, total via a
fuel parameter.  Each regex literal of the source is transcribed into a
`Rx` value next to a comment showing the original pattern.
-/

/-- One item of a character class. -/
inductive CItem where
  | ch (c : Char)
  | range (lo hi : Char)
  | sp        -- `\s`
  | wd        -- `\w`
  | dg        -- `\d`
deriving Repr, DecidableEq

/-- Does `c` match a single class item? -/
def citemMatch (c : Char) : CItem → Bool
  | .ch c' => c = c'
  | .range lo hi => lo ≤ c && c ≤ hi
  | .sp => jsSpace c
  | .wd => jsWord c
  | .dg => jsDigit c

/-- Regex abstract syntax (the fragment the source's regexes use). -/
inductive Rx where
  | eps
  | lit (c : Char)
  /-- `[...]` (`neg = false`) or `[^...]` (`neg = true`). -/
  | cls (neg : Bool) (items : List CItem)
  /-- `[\s\S]`: any character. -/
  | anyc
  | seq (a b : Rx)
  | alt (a b : Rx)
  /-- Quantifier `{lo,hi}` (`hi = none` for unbounded); `lzy` marks `?`-lazy. -/
  | rep (lo : Nat) (hi : Option Nat) (lzy : Bool) (a : Rx)
  /-- Capturing group number `i` (1-based as in JS). -/
  | grp (i : Nat) (a : Rx)
  /-- Lookahead `(?=...)` (`neg = false`) / `(?!...)` (`neg = true`). -/
  | look (neg : Bool) (a : Rx)
  /-- Backreference `\i`. -/
  | bref (i : Nat)
  | bol   -- `^`
  | eol   -- `$`
  | wb    -- `\b`
deriving Repr

/-- Captured group spans: `(group index, start, stop)`, latest first. -/
abbrev Caps := List (Nat × Nat × Nat)

/-- Look up the most recent span recorded for group `i`. -/
def capsGet (caps : Caps) (i : Nat) : Option (Nat × Nat) :=
  match caps.find? (fun e => e.1 = i) with
  | some (_, s, e) => some (s, e)
  | none => none

/-- Is position `pos` at a word boundary of `s` (JS `\b`)? -/
def atWordBoundary (s : List Char) (pos : Nat) : Bool :=
  let before := match s.get? (pos - 1) with
    | some c => pos ≠ 0 && jsWord c
    | none => false
  let after := match s.get? pos with
    | some c => jsWord c
    | none => false
  before != after

/-- A termination measure on regexes: the size of the syntax tree plus
any remaining mandatory repetition count (the bounded upper limit plays
no role in termination, the fuel covers unbounded iteration). -/
def rxMeasure : Rx → Nat
  | .seq a b => 1 + rxMeasure a + rxMeasure b
  | .alt a b => 1 + rxMeasure a + rxMeasure b
  | .rep lo _ _ a => 1 + lo + rxMeasure a
  | .grp _ a => 1 + rxMeasure a
  | .look _ a => 1 + rxMeasure a
  | _ => 1

mutual
/--
The core matcher.  `reL s ml fuel rx pos caps` returns the list of all
ways `rx` can match at position `pos` of `s` (with multiline flag `ml`
for `^`/`$`), each way giving the end position and captures, in the
ECMAScript backtracking priority order — so the first element is the
match JS would produce once the rest of the pattern is taken into
account by `flatMap` sequencing.  The fuel only decreases on unbounded
repetition, which is bounded by the input length in practice.
Repetition follows the ECMAScript semantics, including the rule that an
iteration that consumes nothing ends the iteration.  Lookahead discards
the captures made inside it (none of the source's lookaheads capture).
-/
def reL (s : List Char) (ml : Bool) (fuel : Nat) (rx : Rx) (pos : Nat)
    (caps : Caps) : List (Nat × Caps) :=
  match rx with
  | .eps => [(pos, caps)]
  | .lit c =>
    match s.get? pos with
    | some c' => if c' = c then [(pos + 1, caps)] else []
    | none => []
  | .cls neg items =>
    match s.get? pos with
    | some c => if (items.any (citemMatch c)) != neg then [(pos + 1, caps)] else []
    | none => []
  | .anyc =>
    match s.get? pos with
    | some _ => [(pos + 1, caps)]
    | none => []
  | .seq a b =>
    (reL s ml fuel a pos caps).flatMap (fun r => reL s ml fuel b r.1 r.2)
  | .alt a b => reL s ml fuel a pos caps ++ reL s ml fuel b pos caps
  | .rep lo hi lzy a =>
    if _h : lo ≠ 0 then
      (reL s ml fuel a pos caps).flatMap
        (fun r => reL s ml fuel (.rep (lo - 1) (hi.map (· - 1)) lzy a) r.1 r.2)
    else if hi = some 0 then [(pos, caps)]
    else if _hf : fuel = 0 then []
    else
      let more := repIter s ml fuel hi lzy a pos (reL s ml fuel a pos caps)
      if lzy then (pos, caps) :: more else more ++ [(pos, caps)]
  | .grp i a =>
    (reL s ml fuel a pos caps).map (fun r => (r.1, (i, pos, r.1) :: r.2))
  | .look neg a =>
    if (reL s ml fuel a pos caps).isEmpty = neg then [(pos, caps)] else []
  | .bref i =>
    match capsGet caps i with
    | none => [(pos, caps)]
    | some (st, en) =>
      let sub := (s.drop st).take (en - st)
      if sub.isPrefixOf (s.drop pos) then [(pos + sub.length, caps)] else []
  | .bol =>
    if pos = 0 || (ml && s.get? (pos - 1) = some '\n') then [(pos, caps)] else []
  | .eol =>
    if pos = s.length || (ml && s.get? pos = some '\n') then [(pos, caps)] else []
  | .wb => if atWordBoundary s pos then [(pos, caps)] else []
termination_by (fuel, rxMeasure rx, 0)
decreasing_by
  all_goals simp [rxMeasure, Prod.lex_iff]
  all_goals omega

/-- Continue an unbounded repetition after one body iteration: for each
body outcome (in priority order), drop it if it consumed nothing (the
ECMAScript empty-iteration rule) and otherwise iterate. -/
def repIter (s : List Char) (ml : Bool) (fuel : Nat) (hi : Option Nat)
    (lzy : Bool) (a : Rx) (pos : Nat) :
    List (Nat × Caps) → List (Nat × Caps)
  | [] => []
  | r :: rest =>
    (if _hs : r.1 = pos ∨ fuel = 0 then []
     else reL s ml (fuel - 1) (.rep 0 (hi.map (· - 1)) lzy a) r.1 r.2) ++
    repIter s ml fuel hi lzy a pos rest
termination_by l => (fuel, rxMeasure a, l.length + 1)
decreasing_by
  all_goals simp [rxMeasure, Prod.lex_iff]
  all_goals omega
end

/-- Engine fuel: far more than any of the concrete runs in this file need. -/
def rxFuel : Nat := 1000000

/-- Result of a successful `RegExp.exec`: index, full match, and the
numbered group captures (`none` = JS `undefined`). -/
structure JsMatch where
  index : Nat
  matched : List Char
  groups : List (Option (List Char))
deriving Repr, DecidableEq

/-- Extract groups `1..ng` from a final capture list. -/
def extractGroups (s : List Char) (caps : Caps) (ng : Nat) : List (Option (List Char)) :=
  (List.range ng).map fun i =>
    match capsGet caps (i + 1) with
    | some (st, en) => some ((s.drop st).take (en - st))
    | none => none

/-- Try to match `rx` at exactly position `pos`. -/
def rxMatchAt (ml : Bool) (rx : Rx) (ng : Nat) (s : List Char) (pos : Nat) :
    Option JsMatch :=
  match (reL s ml rxFuel rx pos []).head? with
  | some (stop, caps) =>
    some ⟨pos, (s.drop pos).take (stop - pos), extractGroups s caps ng⟩
  | none => none

/-- Search loop of `exec`: try positions `pos, pos+1, ...` (at most
`steps` of them). -/
def rxSearchFrom (ml : Bool) (rx : Rx) (ng : Nat) (s : List Char) :
    Nat → Nat → Option JsMatch
  | 0, _ => none
  | steps + 1, pos =>
    match rxMatchAt ml rx ng s pos with
    | some m => some m
    | none =>
      if pos < s.length then rxSearchFrom ml rx ng s steps (pos + 1) else none

/-- `regex.exec(s)` for a regex with `ng` capturing groups. -/
def rxExec (ml : Bool) (rx : Rx) (ng : Nat) (s : List Char) : Option JsMatch :=
  rxSearchFrom ml rx ng s (s.length + 1) 0

/-- `regex.test(s)`. -/
def rxTest (ml : Bool) (rx : Rx) (s : List Char) : Bool :=
  (rxExec ml rx 0 s).isSome

/-- Group `i` of a match, with JS `undefined`/missing read as `""`
(used where the source indexes `capture[i]` as a string). -/
def JsMatch.g (m : JsMatch) (i : Nat) : List Char :=
  if i = 0 then m.matched
  else match m.groups.get? (i - 1) with
    | some (some l) => l
    | _ => []

/-- Group `i` of a match as `Option` (distinguishing JS `undefined`). -/
def JsMatch.gOpt (m : JsMatch) (i : Nat) : Option (List Char) :=
  if i = 0 then some m.matched
  else match m.groups.get? (i - 1) with
    | some o => o
    | none => none

/-- One step of a global scan: replacement/matching loop body.
Given a match at `m.index`, global scans resume after the match, or one
character further when the match is empty (JS `lastIndex` behaviour). -/
def rxReplAux (ml : Bool) (rx : Rx) (ng : Nat) (s : List Char)
    (f : JsMatch → List Char) : Nat → Nat → List Char
  | 0, pos => s.drop pos
  | steps + 1, pos =>
    match rxSearchFrom ml rx ng s (s.length + 1 - pos) pos with
    | none => s.drop pos
    | some m =>
      let pre := (s.drop pos).take (m.index - pos)
      if m.matched.isEmpty then
        match s.get? m.index with
        | some c => pre ++ f m ++ [c] ++ rxReplAux ml rx ng s f steps (m.index + 1)
        | none => pre ++ f m
      else
        pre ++ f m ++ rxReplAux ml rx ng s f steps (m.index + m.matched.length)

/-- `s.replace(regex-with-g, f)`. -/
def rxReplaceG (ml : Bool) (rx : Rx) (ng : Nat) (s : List Char)
    (f : JsMatch → List Char) : List Char :=
  rxReplAux ml rx ng s f (s.length + 1) 0

/-- `s.replace(regex-without-g, f)`: first match only. -/
def rxReplace1 (ml : Bool) (rx : Rx) (ng : Nat) (s : List Char)
    (f : JsMatch → List Char) : List Char :=
  match rxExec ml rx ng s with
  | none => s
  | some m =>
    s.take m.index ++ f m ++ s.drop (m.index + m.matched.length)

/-- `s.match(regex-with-g)`: the list of full matches (JS returns `null`
when there is none; callers in the source immediately iterate, so the
`none` case is surfaced as an `Option`). -/
def rxMatchAllAux (ml : Bool) (rx : Rx) (s : List Char) :
    Nat → Nat → List (List Char)
  | 0, _ => []
  | steps + 1, pos =>
    match rxSearchFrom ml rx 0 s (s.length + 1 - pos) pos with
    | none => []
    | some m =>
      if m.matched.isEmpty then
        m.matched :: rxMatchAllAux ml rx s steps (m.index + 1)
      else
        m.matched :: rxMatchAllAux ml rx s steps (m.index + m.matched.length)

/-- `s.match(regex-with-g)` as an `Option`al non-empty list. -/
def rxMatchAll (ml : Bool) (rx : Rx) (s : List Char) : Option (List (List Char)) :=
  match rxMatchAllAux ml rx s (s.length + 1) 0 with
  | [] => none
  | l => some l

/-! ## Regex constructors and the source's regex literals -/

/-- Sequence a list of regexes. -/
def seqL : List Rx → Rx
  | [] => .eps
  | [r] => r
  | r :: rs => .seq r (seqL rs)

/-- Alternation over a list (left-to-right preference, as in JS). -/
def altL : List Rx → Rx
  | [] => .eps
  | [r] => r
  | r :: rs => .alt r (altL rs)

/-- A literal string. -/
def rStr (s : String) : Rx := seqL (s.data.map Rx.lit)

/-- `x*` (greedy). -/
def starG (r : Rx) : Rx := .rep 0 none false r
/-- `x*?` (lazy). -/
def starLzy (r : Rx) : Rx := .rep 0 none true r
/-- `x+` (greedy). -/
def plusG (r : Rx) : Rx := .rep 1 none false r
/-- `x+?` (lazy). -/
def plusL (r : Rx) : Rx := .rep 1 none true r
/-- `x?` (greedy). -/
def ropt (r : Rx) : Rx := .rep 0 (some 1) false r
/-- `[^\n]`. -/
def nNl : Rx := .cls true [.ch '\n']
/-- `.` (any char except line terminators). -/
def rdot : Rx := .cls true [.ch '\n', .ch '\r', .ch (Char.ofNat 0x2028), .ch (Char.ofNat 0x2029)]
/-- `\s`. -/
def spc : Rx := .cls false [.sp]
/-- `\S`. -/
def nspc : Rx := .cls true [.sp]
/-- `\w`. -/
def wrd : Rx := .cls false [.wd]
/-- ` *`. -/
def sps : Rx := starG (.lit ' ')
/-- `(?:\n *)+\n` — the common block terminator. -/
def blockEndNl : Rx := .seq (plusG (.seq (.lit '\n') sps)) (.lit '\n')
/-- `\\[\s\S]` — an escape pair. -/
def escPair : Rx := .seq (.lit '\\') .anyc

/-- `/^ *(#{1,6})([^\n]+?)#* *(?:\n *)+\n/` (heading). -/
def HEADING_R : Rx := seqL [.bol, sps, .grp 1 (.rep 1 (some 6) false (.lit '#')),
  .grp 2 (plusL nNl), starG (.lit '#'), sps, blockEndNl]

/-- `/^ *(\S.*\|.*)\n *([-:]+ *\|[-| :]*)\n((?:.*\|.*(?:\n|$))*)\n*/` (nptable). -/
def NPTABLE_REGEX : Rx := seqL [.bol, sps,
  .grp 1 (seqL [nspc, starG rdot, .lit '|', starG rdot]), .lit '\n', sps,
  .grp 2 (seqL [plusG (.cls false [.ch '-', .ch ':']), sps, .lit '|',
    starG (.cls false [.ch '-', .ch '|', .ch ' ', .ch ':'])]), .lit '\n',
  .grp 3 (starG (seqL [starG rdot, .lit '|', starG rdot, .alt (.lit '\n') .eol])),
  starG (.lit '\n')]

/-- `/^([^\n]+)\n *(=|-){3,} *(?:\n *)+\n/` (lheading). -/
def LHEADING_R : Rx := seqL [.bol, .grp 1 (plusG nNl), .lit '\n', sps,
  .rep 3 none false (.grp 2 (.alt (.lit '=') (.lit '-'))), sps, blockEndNl]

/-- `/^( *[-*_]){3,} *(?:\n *)+\n/` (hr). -/
def HR_R : Rx := seqL [.bol,
  .rep 3 none false (.grp 1 (.seq sps (.cls false [.ch '-', .ch '*', .ch '_']))),
  sps, blockEndNl]

/-- `/^(?:    [^\n]+\n*)+(?:\n *)+\n/` (codeBlock). -/
def CODE_BLOCK_R : Rx := seqL [.bol,
  plusG (seqL [rStr "    ", plusG nNl, starG (.lit '\n')]), blockEndNl]

/-- ``/^ *(`{3,}|~{3,}) *(?:(\S+) *)?\n([\s\S]+?)\n?\1 *(?:\n *)+\n/`` (fence). -/
def FENCE_R : Rx := seqL [.bol, sps,
  .grp 1 (.alt (.rep 3 none false (.lit btick)) (.rep 3 none false (.lit '~'))),
  sps, ropt (.seq (.grp 2 (plusG nspc)) sps), .lit '\n',
  .grp 3 (plusL .anyc), ropt (.lit '\n'), .bref 1, sps, blockEndNl]

/-- `/^( *>[^\n]+(\n[^\n]+)*\n*)+\n{2,}/` (blockQuote). -/
def BLOCK_QUOTE_R : Rx := seqL [.bol,
  plusG (.grp 1 (seqL [sps, .lit '>', plusG nNl,
    starG (.grp 2 (.seq (.lit '\n') (plusG nNl))), starG (.lit '\n')])),
  .rep 2 none false (.lit '\n')]

/-- `(?:[*+-]|\d+\.)` (LIST_BULLET). -/
def bulletRx : Rx :=
  .alt (.cls false [.ch '*', .ch '+', .ch '-']) (.seq (plusG (.cls false [.dg])) (.lit '.'))

/-- `/^( *)((?:[*+-]|\d+\.)) +/` (LIST_ITEM_PREFIX_R). -/
def LIST_ITEM_PREFIX_R : Rx := seqL [.bol, .grp 1 sps, .grp 2 bulletRx, plusG (.lit ' ')]

/-- `/( *)((?:[*+-]|\d+\.)) [^\n]*(?:\n(?!\1(?:[*+-]|\d+\.) )[^\n]*)*(\n|$)/gm`
(LIST_ITEM_R; used with the `m` flag). -/
def LIST_ITEM_R : Rx := seqL [.grp 1 sps, .grp 2 bulletRx, .lit ' ', starG nNl,
  starG (seqL [.lit '\n',
    .look true (seqL [.bref 1, bulletRx, .lit ' ']), starG nNl]),
  .grp 3 (.alt (.lit '\n') .eol)]

/-- `/\n{2,}$/` (BLOCK_END_R, also LIST_BLOCK_END_R). -/
def BLOCK_END_R : Rx := .seq (.rep 2 none false (.lit '\n')) .eol

/-- ``/^ (?= *`)|(` *) $/g`` (INLINE_CODE_ESCAPE_BACKTICKS_R). -/
def INLINE_CODE_ESCAPE_BACKTICKS_R : Rx :=
  .alt (seqL [.bol, .lit ' ', .look false (.seq sps (.lit btick))])
       (seqL [.grp 1 (.seq (.lit btick) sps), .lit ' '])

/-- `/ *\n+$/` (LIST_ITEM_END_R). -/
def LIST_ITEM_END_R : Rx := seqL [sps, plusG (.lit '\n'), .eol]

/-- `/^( *)((?:[*+-]|\d+\.)) [\s\S]+?(?:\n{2,}(?! )(?!\1(?:[*+-]|\d+\.) )\n*|\s*\n*$)/`
(LIST_R). -/
def LIST_R : Rx := seqL [.bol, .grp 1 sps, .grp 2 bulletRx, .lit ' ', plusL .anyc,
  .alt (seqL [.rep 2 none false (.lit '\n'), .look true (.lit ' '),
          .look true (seqL [.bref 1, bulletRx, .lit ' ']), starG (.lit '\n')])
       (seqL [starG spc, starG (.lit '\n'), .eol])]

/-- `/(?:^|\n)( *)$/` (LIST_LOOKBEHIND_R; unanchored). -/
def LIST_LOOKBEHIND_R : Rx := seqL [.alt .bol (.lit '\n'), .grp 1 sps, .eol]

/-- `/^ *\| *| *\| *$/g` (TABLE_ROW_SEPARATOR_TRIM). -/
def TABLE_ROW_SEPARATOR_TRIM : Rx :=
  .alt (seqL [.bol, sps, .lit '|', sps]) (seqL [sps, .lit '|', sps, .eol])

/-- `/ *$/` (TABLE_CELL_END_TRIM). -/
def TABLE_CELL_END_TRIM : Rx := .seq sps .eol

/-- `/^ *-+: *$/` (TABLE_RIGHT_ALIGN). -/
def TABLE_RIGHT_ALIGN : Rx := seqL [.bol, sps, plusG (.lit '-'), .lit ':', sps, .eol]

/-- `/^ *:-+: *$/` (TABLE_CENTER_ALIGN). -/
def TABLE_CENTER_ALIGN : Rx :=
  seqL [.bol, sps, .lit ':', plusG (.lit '-'), .lit ':', sps, .eol]

/-- `/^ *:-+ *$/` (TABLE_LEFT_ALIGN). -/
def TABLE_LEFT_ALIGN : Rx := seqL [.bol, sps, .lit ':', plusG (.lit '-'), sps, .eol]

/-- `/^ *(\|.+)\n *\|( *[-:]+[-| :]*)\n((?: *\|.*(?:\n|$))*)\n*/` (TABLE_REGEX). -/
def TABLE_REGEX : Rx := seqL [.bol, sps, .grp 1 (.seq (.lit '|') (plusG rdot)),
  .lit '\n', sps, .lit '|',
  .grp 2 (seqL [sps, plusG (.cls false [.ch '-', .ch ':']),
    starG (.cls false [.ch '-', .ch '|', .ch ' ', .ch ':'])]), .lit '\n',
  .grp 3 (starG (seqL [sps, .lit '|', starG rdot, .alt (.lit '\n') .eol])),
  starG (.lit '\n')]

/-- `/^(?:\n *)*\n/` (newline). -/
def NEWLINE_R : Rx := seqL [.bol, starG (.seq (.lit '\n') sps), .lit '\n']

/-- `/^((?:[^\n]|\n(?! *\n))+)(?:\n *)+\n/` (paragraph). -/
def PARAGRAPH_R : Rx := seqL [.bol,
  .grp 1 (plusG (.alt nNl (.seq (.lit '\n') (.look true (.seq sps (.lit '\n')))))),
  blockEndNl]

/-- `/^\\([^0-9A-Za-z\s])/` (escape). -/
def ESCAPE_R : Rx := seqL [.bol, .lit '\\',
  .grp 1 (.cls true [.range '0' '9', .range 'A' 'Z', .range 'a' 'z', .sp])]

/-- `/^ *\| */` (tableSeparator). -/
def TABLE_SEPARATOR_R : Rx := seqL [.bol, sps, .lit '|', sps]

/-- `/^<([^: >]+:\/[^ >]+)>/` (autolink). -/
def AUTOLINK_R : Rx := seqL [.bol, .lit '<',
  .grp 1 (seqL [plusG (.cls true [.ch ':', .ch ' ', .ch '>']), .lit ':', .lit '/',
    plusG (.cls true [.ch ' ', .ch '>'])]), .lit '>']

/-- `/^<([^ >]+@[^ >]+)>/` (mailto). -/
def MAILTO_R : Rx := seqL [.bol, .lit '<',
  .grp 1 (seqL [plusG (.cls true [.ch ' ', .ch '>']), .lit '@',
    plusG (.cls true [.ch ' ', .ch '>'])]), .lit '>']

/-- `/mailto:/i` (AUTOLINK_MAILTO_CHECK_R): a case-insensitive unanchored
test; the `i` flag is transcribed as two-case character classes. -/
def AUTOLINK_MAILTO_CHECK_R : Rx := seqL [.cls false [.ch 'm', .ch 'M'],
  .cls false [.ch 'a', .ch 'A'], .cls false [.ch 'i', .ch 'I'],
  .cls false [.ch 'l', .ch 'L'], .cls false [.ch 't', .ch 'T'],
  .cls false [.ch 'o', .ch 'O'], .lit ':']

/-- `/^(https?:\/\/[^\s<]+[^<.,:;"')\]\s])/` (url). -/
def URL_R : Rx := seqL [.bol, .grp 1 (seqL [rStr "http", ropt (.lit 's'), rStr "://",
  plusG (.cls true [.sp, .ch '<']),
  .cls true [.ch '<', .ch '.', .ch ',', .ch ':', .ch ';', .ch '"', .ch '\'',
    .ch ')', .ch ']', .sp]])]

/-- `(?:\[[^\]]*\]|[^\[\]]|\](?=[^\[]*\]))*` (LINK_INSIDE). -/
def LINK_INSIDE_R : Rx := starG (altL [
  seqL [.lit '[', starG (.cls true [.ch ']']), .lit ']'],
  .cls true [.ch '[', .ch ']'],
  .seq (.lit ']') (.look false (.seq (starG (.cls true [.ch '['])) (.lit ']')))])

/-- `\s*<?((?:\([^)]*\)|[^\s\\]|\\.)*?)>?(?:\s+['"]([\s\S]*?)['"])?\s*`
(LINK_HREF_AND_TITLE; groups 2 and 3 of the link/image regexes). -/
def LINK_HREF_TITLE_R : Rx := seqL [starG spc, ropt (.lit '<'),
  .grp 2 (starLzy (altL [seqL [.lit '(', starG (.cls true [.ch ')']), .lit ')'],
    .cls true [.sp, .ch '\\'], .seq (.lit '\\') rdot])),
  ropt (.lit '>'),
  ropt (seqL [plusG spc, .cls false [.ch '\'', .ch '"'], .grp 3 (starLzy .anyc),
    .cls false [.ch '\'', .ch '"']]),
  starG spc]

/-- `new RegExp('^\\[(' + LINK_INSIDE + ')\\]\\(' + LINK_HREF_AND_TITLE + '\\)')` (link). -/
def LINK_R : Rx := seqL [.bol, .lit '[', .grp 1 LINK_INSIDE_R, .lit ']', .lit '(',
  LINK_HREF_TITLE_R, .lit ')']

/-- The image regex: as `LINK_R` with a leading `!`. -/
def IMAGE_R : Rx := seqL [.bol, .lit '!', .lit '[', .grp 1 LINK_INSIDE_R, .lit ']',
  .lit '(', LINK_HREF_TITLE_R, .lit ')']

/-- `new RegExp('^\\[(' + LINK_INSIDE + ')\\]\\s*\\[([^\\]]*)\\]')` (reflink). -/
def REFLINK_R : Rx := seqL [.bol, .lit '[', .grp 1 LINK_INSIDE_R, .lit ']',
  starG spc, .lit '[', .grp 2 (starG (.cls true [.ch ']'])), .lit ']']

/-- The refimage regex: as `REFLINK_R` with a leading `!`. -/
def REFIMAGE_R : Rx := seqL [.bol, .lit '!', .lit '[', .grp 1 LINK_INSIDE_R, .lit ']',
  starG spc, .lit '[', .grp 2 (starG (.cls true [.ch ']'])), .lit ']']

/-- `/^ *\[([^\]]+)\]: *<?([^\s>]*)>?(?: +["(]([^\n]+)[")])? *\n(?: *\n)*/` (def). -/
def DEF_R : Rx := seqL [.bol, sps, .lit '[', .grp 1 (plusG (.cls true [.ch ']'])),
  .lit ']', .lit ':', sps, ropt (.lit '<'),
  .grp 2 (starG (.cls true [.sp, .ch '>'])), ropt (.lit '>'),
  ropt (seqL [plusG (.lit ' '), .cls false [.ch '"', .ch '('],
    .grp 3 (plusG nNl), .cls false [.ch '"', .ch ')']]),
  sps, .lit '\n', starG (.seq sps (.lit '\n'))]

/-- The em regex:
`^\b_((?:__|\\[\s\S]|[^\\_])+?)_\b|^\*(?=\S)((?:\*\*|\\[\s\S]|\s+(?:\\[\s\S]|[^\s\*\\]|\*\*)|[^\s\*\\])+?)\*(?!\*)`. -/
def EM_R : Rx := .alt
  (seqL [.bol, .wb, .lit '_',
    .grp 1 (plusL (altL [rStr "__", escPair, .cls true [.ch '\\', .ch '_']])),
    .lit '_', .wb])
  (seqL [.bol, .lit '*', .look false nspc,
    .grp 2 (plusL (altL [rStr "**", escPair,
      seqL [plusG spc, altL [escPair, .cls true [.sp, .ch '*', .ch '\\'], rStr "**"]],
      .cls true [.sp, .ch '*', .ch '\\']])),
    .lit '*', .look true (.lit '*')])

/-- `/^\*\*((?:\\[\s\S]|[^\\])+?)\*\*(?!\*)/` (strong). -/
def STRONG_R : Rx := seqL [.bol, rStr "**",
  .grp 1 (plusL (.alt escPair (.cls true [.ch '\\']))), rStr "**", .look true (.lit '*')]

/-- `/^__((?:\\[\s\S]|[^\\])+?)__(?!_)/` (u). -/
def U_R : Rx := seqL [.bol, rStr "__",
  .grp 1 (plusL (.alt escPair (.cls true [.ch '\\']))), rStr "__", .look true (.lit '_')]

/-- `/^~~(?=\S)((?:\\[\s\S]|~(?!~)|[^\s~\\]|\s(?!~~))+?)~~/` (del). -/
def DEL_R : Rx := seqL [.bol, rStr "~~", .look false nspc,
  .grp 1 (plusL (altL [escPair, .seq (.lit '~') (.look true (.lit '~')),
    .cls true [.sp, .ch '~', .ch '\\'], .seq spc (.look true (rStr "~~"))])),
  rStr "~~"]

/-- ``/^(`+)([\s\S]*?[^`])\1(?!`)/`` (inlineCode). -/
def INLINE_CODE_R : Rx := seqL [.bol, .grp 1 (plusG (.lit btick)),
  .grp 2 (.seq (starLzy .anyc) (.cls true [.ch btick])), .bref 1,
  .look true (.lit btick)]

/-- `/^ {2,}\n/` (br). -/
def BR_R : Rx := seqL [.bol, .rep 2 none false (.lit ' '), .lit '\n']

/-- `/^[\s\S]+?(?=[^0-9A-Za-z\sÀ-￿]|\n\n| {2,}\n|\w+:\S|$)/` (text). -/
def TEXT_R : Rx := seqL [.bol, plusL .anyc,
  .look false (altL [
    .cls true [.range '0' '9', .range 'A' 'Z', .range 'a' 'z', .sp,
      .range (Char.ofNat 0xc0) (Char.ofNat 0xffff)],
    rStr "\n\n",
    .seq (.rep 2 none false (.lit ' ')) (.lit '\n'),
    seqL [plusG wrd, .lit ':', nspc],
    .eol])]

/-- `/[<>&"']/g` (SANITIZE_TEXT_R).  Note it matches only these five
characters, although the entity table below has seven entries. -/
def SANITIZE_TEXT_R : Rx :=
  .cls false [.ch '<', .ch '>', .ch '&', .ch '"', .ch '\'']

/-- `/\\([^0-9A-Za-z\s])/g` (UNESCAPE_URL_R). -/
def UNESCAPE_URL_R : Rx := .seq (.lit '\\')
  (.grp 1 (.cls true [.range '0' '9', .range 'A' 'Z', .range 'a' 'z', .sp]))

/-- `/^    /gm` — the per-line strip in `codeBlock`'s parse. -/
def CODE_BLOCK_STRIP_R : Rx := .seq .bol (rStr "    ")

/-- `/\n+$/` — the trailing-newline strip in `codeBlock`'s parse. -/
def TRAILING_NL_R : Rx := .seq (plusG (.lit '\n')) .eol

/-- `/^ *> ?/gm` — the strip in `blockQuote`'s parse. -/
def BLOCK_QUOTE_STRIP_R : Rx := seqL [.bol, sps, .lit '>', ropt (.lit ' ')]

/-- `new RegExp('^ {1,' + space + '}', 'gm')` — the per-item unindent in
`list`'s parse. -/
def spaceRegex (space : Nat) : Rx := .seq .bol (.rep 1 (some space) false (.lit ' '))

/-- `/\s+/g` — whitespace collapsing of ref keys. -/
def WS_RUN_R : Rx := plusG spc

/-! ## Sanitization and escaping utilities -/

/-- `SANITIZE_TEXT_CODES`: the seven-entry replacement table (read with
the JS `obj[chr]` semantics: missing key reads as nothing). -/
def SANITIZE_TEXT_CODES (c : Char) : List Char :=
  if c = '<' then "&lt;".data
  else if c = '>' then "&gt;".data
  else if c = '&' then "&amp;".data
  else if c = '"' then "&quot;".data
  else if c = '\'' then "&#x27;".data
  else if c = '/' then "&#x2F;".data
  else if c = btick then "&#96;".data
  else []

/-- `sanitizeText`: `String(text).replace(SANITIZE_TEXT_R, chr => SANITIZE_TEXT_CODES[chr])`. -/
def sanitizeText (l : List Char) : List Char :=
  rxReplaceG false SANITIZE_TEXT_R 0 l (fun m => SANITIZE_TEXT_CODES (m.matched.headD ' '))

/-- `unescapeUrl`: `rawUrlString.replace(UNESCAPE_URL_R, '$1')`. -/
def unescapeUrl (l : List Char) : List Char :=
  rxReplaceG false UNESCAPE_URL_R 1 l (fun m => m.g 1)

/-- Value of a hex digit. -/
def hexDigit (c : Char) : Option Nat :=
  if '0' ≤ c && c ≤ '9' then some (c.toNat - '0'.toNat)
  else if 'A' ≤ c && c ≤ 'F' then some (c.toNat - 'A'.toNat + 10)
  else if 'a' ≤ c && c ≤ 'f' then some (c.toNat - 'a'.toNat + 10)
  else none

/-- Is `b` a UTF-8 continuation byte? -/
def utf8Cont (b : Nat) : Bool := 0x80 ≤ b && b ≤ 0xbf

/-- Strict UTF-8 decoding of a byte run (rejecting overlong forms,
surrogates and out-of-range code points), as `decodeURIComponent`
requires; `none` models the thrown `URIError`. -/
def utf8Decode : Nat → List Nat → Option (List Char)
  | 0, _ => none
  | _, [] => some []
  | f + 1, b :: rest =>
    if b ≤ 0x7f then
      (utf8Decode f rest).map (fun cs => Char.ofNat b :: cs)
    else if 0xc2 ≤ b && b ≤ 0xdf then
      match rest with
      | b2 :: r =>
        if utf8Cont b2 then
          (utf8Decode f r).map (fun cs => Char.ofNat ((b - 0xc0) * 64 + (b2 - 0x80)) :: cs)
        else none
      | _ => none
    else if 0xe0 ≤ b && b ≤ 0xef then
      match rest with
      | b2 :: b3 :: r =>
        let lo2 := if b = 0xe0 then 0xa0 else 0x80
        let hi2 := if b = 0xed then 0x9f else 0xbf
        if (lo2 ≤ b2 && b2 ≤ hi2) && utf8Cont b3 then
          (utf8Decode f r).map (fun cs =>
            Char.ofNat ((b - 0xe0) * 4096 + (b2 - 0x80) * 64 + (b3 - 0x80)) :: cs)
        else none
      | _ => none
    else if 0xf0 ≤ b && b ≤ 0xf4 then
      match rest with
      | b2 :: b3 :: b4 :: r =>
        let lo2 := if b = 0xf0 then 0x90 else 0x80
        let hi2 := if b = 0xf4 then 0x8f else 0xbf
        if (lo2 ≤ b2 && b2 ≤ hi2) && utf8Cont b3 && utf8Cont b4 then
          (utf8Decode f r).map (fun cs =>
            Char.ofNat ((b - 0xf0) * 262144 + (b2 - 0x80) * 4096 +
              (b3 - 0x80) * 64 + (b4 - 0x80)) :: cs)
        else none
      | _ => none
    else none

/-- Collect a maximal run of `%XX` escapes into bytes; `none` on a
malformed escape (the thrown `URIError`). -/
def pctRun : List Char → Option (List Nat × List Char)
  | '%' :: h1 :: h2 :: rest => do
    let a ← hexDigit h1
    let b ← hexDigit h2
    let (bs, r) ← pctRun rest
    some ((a * 16 + b) :: bs, r)
  | '%' :: _ => none
  | l => some ([], l)

/-- `decodeURIComponent`, modelled on JS strings: non-escape characters
pass through; runs of `%XX` escapes are decoded as UTF-8.  `none`
models the thrown `URIError`. -/
def decodeURIComponentM : Nat → List Char → Option (List Char)
  | 0, _ => none
  | _, [] => some []
  | f + 1, l@('%' :: _) => do
    let (bs, rest) ← pctRun l
    let cs ← utf8Decode (bs.length + 1) bs
    let tail ← decodeURIComponentM f rest
    some (cs ++ tail)
  | f + 1, c :: rest => (decodeURIComponentM f rest).map (c :: ·)

/-- Is `c` kept by the `replace(/[^A-Za-z0-9/:]/g, '')` strip? -/
def urlAllowed (c : Char) : Bool :=
  ('A' ≤ c && c ≤ 'Z') || ('a' ≤ c && c ≤ 'z') || ('0' ≤ c && c ≤ '9') ||
  c = '/' || c = ':'

/-- ASCII lowercasing: `toLowerCase` restricted to the characters that
survive the strip above (all ASCII), where the JS and ASCII lowercase
agree. -/
def asciiLower (c : Char) : Char :=
  if 'A' ≤ c && c ≤ 'Z' then Char.ofNat (c.toNat + 32) else c

/-- `sanitizeUrl` from the source: `null` for `null`; decode (returning
`null` on a `URIError`); strip to `[A-Za-z0-9/:]`, lowercase, and
reject `javascript:`/`vbscript:`/`data:` prefixes; otherwise return the
original string. -/
def sanitizeUrl (url : Option (List Char)) : Option (List Char) :=
  match url with
  | none => none
  | some u =>
    match decodeURIComponentM (u.length + 1) u with
    | none => none
    | some dec =>
      let prot := (dec.filter urlAllowed).map asciiLower
      if ("javascript:".data.isPrefixOf prot) ||
         ("vbscript:".data.isPrefixOf prot) ||
         ("data:".data.isPrefixOf prot) then none
      else some u

/-! ## AST nodes and parser state -/

mutual
/-- A JS value stored in a node field. -/
inductive NVal where
  | str : List Char → NVal
  | nat : Nat → NVal
  | bool : Bool → NVal
  | undefined : NVal
  | null : NVal
  | nodes : List MDNode → NVal
  | arr : List NVal → NVal

/-- An AST node: its `type` (`none` = JS `null`/missing), an optional
serial number (identity of ref nodes, used to model the in-place
mutation of reference backpatching), and its other fields. -/
inductive MDNode where
  | mk : Option String → Option Nat → List (String × NVal) → MDNode
end

/-- `node.type`. -/
def MDNode.typ : MDNode → Option String
  | .mk t _ _ => t

/-- The serial number (model of object identity for ref nodes). -/
def MDNode.serial : MDNode → Option Nat
  | .mk _ s _ => s

/-- The payload fields. -/
def MDNode.fields : MDNode → List (String × NVal)
  | .mk _ _ f => f

/-- Read field `k`. -/
def MDNode.getF (n : MDNode) (k : String) : Option NVal :=
  (n.fields.find? (·.1 = k)).map (·.2)

/-- Write field `k` (JS property assignment: overwrite in place, or
append a new property). -/
def MDNode.setF (n : MDNode) (k : String) (v : NVal) : MDNode :=
  match n with
  | .mk t s fs =>
    if (fs.find? (·.1 = k)).isSome then
      .mk t s (fs.map fun e => if e.1 = k then (k, v) else e)
    else .mk t s (fs ++ [(k, v)])

/-- `parsed.type = ruleType` (the dispatcher's type assignment). -/
def MDNode.withTyp (n : MDNode) (t : String) : MDNode :=
  match n with
  | .mk _ s fs => .mk (some t) s fs

/-- Give a node its serial number. -/
def MDNode.withSerial (n : MDNode) (sid : Nat) : MDNode :=
  match n with
  | .mk t _ fs => .mk t (some sid) fs

/-- An `Option`al string as a JS value (`undefined` when absent). -/
def optStr : Option (List Char) → NVal
  | some l => .str l
  | none => .undefined

/-- Parse errors: the two `throw new Error(...)` sites of the nested
parse loop, plus fuel exhaustion (a JS non-terminating loop). -/
inductive PErr where
  | noRule
  | unanchored
  | fuelOut
deriving Repr, DecidableEq

/-- The parser state threaded through all parse calls (§3 of the spec).
`mlist`, `mdefs`, `mrefs` model the source's `_list`, `_defs`, `_refs`;
`serialCtr`/`patches` implement reference backpatching (the source
mutates the recorded ref nodes in place; here each ref node carries a
serial number and the pending mutations are applied to the finished
tree, which yields the same final AST); `extra` holds arbitrary
client-defined fields, which no engine operation reads or writes. -/
structure MDState where
  inline : Bool := false
  disableAutoBlockNewlines : Bool := false
  inTable : Bool := false
  mlist : Bool := false
  prevCapture : Option JsMatch := none
  mdefs : List (List Char × (List Char × Option (List Char))) := []
  mrefs : List (List Char × List Nat) := []
  key : Option (List Char) := none
  serialCtr : Nat := 0
  patches : List (Nat × (List Char × Option (List Char))) := []
  extra : List (String × String) := []

/-- A nested-parse result: the node list and the number of characters
of the input the loop consumed. -/
abbrev ParseCB := List Char → MDState → (Except PErr (List MDNode × Nat)) × MDState

/-- A single parse-rule result: a node, or an array of nodes. -/
inductive ParseOut where
  | one : MDNode → ParseOut
  | many : List MDNode → ParseOut

/-- A parser rule: `order`, `match`, optional `quality`, `parse`. -/
structure PRule where
  order : ℚ
  matchf : List Char → MDState → List Char → Option JsMatch
  quality? : Option (JsMatch → MDState → List Char → ℚ) := none
  parsef : JsMatch → ParseCB → MDState → (Except PErr ParseOut) × MDState

/-- `inlineRegex`: match only in inline scope. -/
def inlineRegex (rx : Rx) (ng : Nat) :
    List Char → MDState → List Char → Option JsMatch :=
  fun source st _ => if st.inline then rxExec false rx ng source else none

/-- `blockRegex`: match only in block scope. -/
def blockRegex (rx : Rx) (ng : Nat) :
    List Char → MDState → List Char → Option JsMatch :=
  fun source st _ => if st.inline then none else rxExec false rx ng source

/-- `anyScopeRegex`: match in either scope. -/
def anyScopeRegex (rx : Rx) (ng : Nat) :
    List Char → MDState → List Char → Option JsMatch :=
  fun source _ _ => rxExec false rx ng source


/-! ## The parser dispatcher (`parserFor`) -/

/-- The best candidate tracked by the nested parse loop. -/
structure Best where
  name : String
  rule : PRule
  capture : JsMatch
  quality : ℚ

/-- `state.prevCapture == null ? '' : state.prevCapture[0]`. -/
def prevStr (st : MDState) : List Char :=
  match st.prevCapture with
  | none => []
  | some m => m.matched

/--
The quality of a rule's match:
`rule.quality ? rule.quality(capture, state, prevCapture) : 0`
(the rule-scanning `do..while` loop of `nestedParse`, lines 125–164 of
the source, which folds one rule at a time into the best
`(ruleType, rule, capture, quality)` candidate, replacing it only when
the new quality is strictly greater — the source's
`!(currQuality <= quality)` with an initial `NaN` quality, which the
first successful match always wins, modelled by the `none` case of
`bestStep` below).
-/
def ruleQuality (e : String × PRule) (cap : JsMatch) (st : MDState)
    (prev : List Char) : ℚ :=
  match e.2.quality? with
  | some f => f cap st prev
  | none => 0

/--
One step of the candidate fold: compare this rule's quality against the
current best and keep the strictly better one.
-/
def bestStep (src : List Char) (st : MDState) (prev : List Char)
    (e : String × PRule) (best : Option Best) : Option Best :=
  match e.2.matchf src st prev with
  | none => best
  | some cap =>
    let q := ruleQuality e cap st prev
    match best with
    | none => some ⟨e.1, e.2, cap, q⟩
    | some b => if q > b.quality then some ⟨e.1, e.2, cap, q⟩ else some b

/--
The rule-scanning loop: examine rules in ruleList order folding via
`bestStep`, and keep scanning while there is no match yet or the next
rule shares the current rule's order and has a quality function.
-/
def scanRules (src : List Char) (st : MDState) (prev : List Char) :
    List (String × PRule) → Option Best → Option Best
  | [], best => best
  | e :: rest, best =>
    let best' := bestStep src st prev e best
    match rest with
    | [] => best'
    | e2 :: _ =>
      match best'.isNone || (e2.2.order = e.2.order && e2.2.quality?.isSome : Bool) with
      | true => scanRules src st prev rest best'
      | false => best'

/--
The nested parse loop: repeat until the source is empty; pick the best
rule; fail if none matched or the capture is unanchored; run the rule's
parse (assigning the rule name as `type` to a single-node result that
lacks one); set `prevCapture`; advance the source by the full capture's
length (`source.substring(capture[0].length)`).  The returned `Nat`
counts the input characters the loop consumed.
-/
def nestedParse (rules : List (String × PRule)) :
    Nat → List Char → MDState → (Except PErr (List MDNode × Nat)) × MDState
  | 0, _, st => (.error .fuelOut, st)
  | _ + 1, [], st => (.ok ([], 0), st)
  | fuel + 1, c0 :: cs0, st =>
      let src := c0 :: cs0
      match scanRules src st (prevStr st) rules none with
      | none => (.error .noRule, st)
      | some b =>
        match b.capture.index with
        | _ + 1 => (.error .unanchored, st)
        | 0 =>
          match b.rule.parsef b.capture (nestedParse rules fuel) st with
          | (.error e, st1) => (.error e, st1)
          | (.ok out, st1) =>
            let st2 := { st1 with prevCapture := some b.capture }
            let rest := src.drop b.capture.matched.length
            match nestedParse rules fuel rest st2 with
            | (.error e, st3) => (.error e, st3)
            | (.ok (nodes2, n2), st3) =>
              let newNodes := match out with
                | .many ns => ns
                | .one nd => [if nd.typ = none then nd.withTyp b.name else nd]
              (.ok (newNodes ++ nodes2, (src.length - rest.length) + n2), st3)

/-! Reference backpatching: the source's `def` rule mutates, in place,
every ref node recorded in `state._refs`.  Here those mutations are
collected in `state.patches` and applied to the finished tree. -/

mutual
/-- Apply pending ref patches to one node. -/
def patchNode (ps : List (Nat × (List Char × Option (List Char)))) :
    MDNode → MDNode
  | .mk t ser fs =>
    let base : MDNode := .mk t ser (patchFields ps fs)
    match ser with
    | none => base
    | some sid =>
      ps.foldl (fun nd p =>
        if p.1 = sid then (nd.setF "target" (.str p.2.1)).setF "title" (optStr p.2.2)
        else nd) base

/-- Apply pending ref patches inside a field list. -/
def patchFields (ps : List (Nat × (List Char × Option (List Char)))) :
    List (String × NVal) → List (String × NVal)
  | [] => []
  | (k, v) :: rest => (k, patchVal ps v) :: patchFields ps rest

/-- Apply pending ref patches inside a value. -/
def patchVal (ps : List (Nat × (List Char × Option (List Char)))) :
    NVal → NVal
  | .nodes ns => .nodes (patchNodes ps ns)
  | .arr vs => .arr (patchVals ps vs)
  | v => v

/-- Apply pending ref patches to a node list. -/
def patchNodes (ps : List (Nat × (List Char × Option (List Char)))) :
    List MDNode → List MDNode
  | [] => []
  | n :: r => patchNode ps n :: patchNodes ps r

/-- Apply pending ref patches to a value list. -/
def patchVals (ps : List (Nat × (List Char × Option (List Char)))) :
    List NVal → List NVal
  | [] => []
  | v :: r => patchVal ps v :: patchVals ps r
end

/--
`outerParse`: populate the state (the default-rules parser is built
with no default-state template), append `"\n\n"` unless in inline scope
or `disableAutoBlockNewlines` is set, clear `prevCapture`, preprocess,
and run the nested parse loop; finally apply the collected ref patches.
-/
def outerParse (rules : List (String × PRule)) (fuel : Nat)
    (source : List Char) (st? : Option MDState) :
    (Except PErr (List MDNode × Nat)) × MDState :=
  let st := st?.getD {}
  let source :=
    if !st.inline && !st.disableAutoBlockNewlines then source ++ ('\n' :: '\n' :: [])
    else source
  let st := { st with prevCapture := none }
  match nestedParse rules fuel (preprocess source) st with
  | (.ok (nodes, n), st') => (.ok (patchNodes st'.patches nodes, n), st')
  | r => r

/-! ## Shared parse helpers -/

/-- `parseInline`: parse `content` with `state.inline` set, restoring it. -/
def parseInline (cb : ParseCB) (content : List Char) (st : MDState) :
    (Except PErr (List MDNode)) × MDState :=
  let isCurrentlyInline := st.inline
  let (r, st1) := cb content { st with inline := true }
  (r.map (·.1), { st1 with inline := isCurrentlyInline })

/-- `parseBlock`: parse `content + "\n\n"` with `state.inline` cleared,
restoring it. -/
def parseBlock (cb : ParseCB) (content : List Char) (st : MDState) :
    (Except PErr (List MDNode)) × MDState :=
  let isCurrentlyInline := st.inline
  let (r, st1) := cb (content ++ ('\n' :: '\n' :: [])) { st with inline := false }
  (r.map (·.1), { st1 with inline := isCurrentlyInline })

/-- `parseCaptureInline`: `{content: parseInline(parse, capture[1], state)}`. -/
def parseCaptureInline (cap : JsMatch) (cb : ParseCB) (st : MDState) :
    (Except PErr ParseOut) × MDState :=
  let (r, st') := parseInline cb (cap.g 1) st
  (r.map (fun ns => .one (.mk none none [("content", .nodes ns)])), st')

/-- `ignoreCapture`: `() => ({})`. -/
def ignoreCapture (_cap : JsMatch) (_cb : ParseCB) (st : MDState) :
    (Except PErr ParseOut) × MDState :=
  (.ok (.one (.mk none none [])), st)

/-- Ref-key canonicalization: `.replace(/\s+/g, ' ').toLowerCase()`
(the lowercasing is modelled on ASCII letters). -/
def canonRef (l : List Char) : List Char :=
  (rxReplaceG false WS_RUN_R 0 l (fun _ => [' '])).map asciiLower

/-- `parseRef`: canonicalize the key from `capture[2] || capture[1]`,
copy a known def's target/title into the node, and record the node in
`state._refs[ref]` (here: record its serial number) for backpatching. -/
def parseRef (cap : JsMatch) (st : MDState) (refNode : MDNode) :
    MDNode × MDState :=
  let ref := canonRef (if (cap.g 2).isEmpty then cap.g 1 else cap.g 2)
  let refNode := match st.mdefs.find? (·.1 = ref) with
    | some (_, tgt, ttl) => (refNode.setF "target" (.str tgt)).setF "title" (optStr ttl)
    | none => refNode
  let sid := st.serialCtr
  let refNode := refNode.withSerial sid
  let mrefs := if (st.mrefs.find? (·.1 = ref)).isSome then
      st.mrefs.map (fun e => if e.1 = ref then (e.1, e.2 ++ [sid]) else e)
    else st.mrefs ++ [(ref, [sid])]
  (refNode, { st with serialCtr := sid + 1, mrefs := mrefs })

/-! ## Table sub-protocol (`TABLES`) -/

/-- `parseTableAlignCapture`: classify one alignment cell. -/
def parseTableAlignCapture (alignCapture : List Char) : Option (List Char) :=
  if rxTest false TABLE_RIGHT_ALIGN alignCapture then some "right".data
  else if rxTest false TABLE_CENTER_ALIGN alignCapture then some "center".data
  else if rxTest false TABLE_LEFT_ALIGN alignCapture then some "left".data
  else none

/-- JS `String.prototype.split` with a single-character separator. -/
def splitOnChar (sep : Char) : List Char → List (List Char)
  | [] => [[]]
  | c :: rest =>
    match splitOnChar sep rest with
    | [] => [[]]
    | h :: t => if c = sep then [] :: h :: t else (c :: h) :: t

/-- `parseTableAlign` (its `parse`/`state` arguments are unused). -/
def parseTableAlign (source : List Char) (trimEndSeparators : Bool) :
    List (Option (List Char)) :=
  let source :=
    if trimEndSeparators then
      rxReplaceG false TABLE_ROW_SEPARATOR_TRIM 0 source (fun _ => [])
    else source
  (splitOnChar '|' (jsTrim source)).map parseTableAlignCapture

/-- Trim the trailing spaces of a text node's content
(`node.content = node.content.replace(TABLE_CELL_END_TRIM, '')`). -/
def trimCellEnd (n : MDNode) : MDNode :=
  match n.getF "content" with
  | some (.str s) => n.setF "content" (.str (rxReplace1 false TABLE_CELL_END_TRIM 0 s (fun _ => [])))
  | _ => n

/-- The `tableRow.forEach` cell-splitting fold of `parseTableRow`. -/
def buildCells (row : List MDNode) (trimEndSeparators : Bool) :
    List (List MDNode) :=
  (row.enum.foldl (fun cells (p : Nat × MDNode) =>
    let i := p.1
    let node := p.2
    if node.typ = some "tableSeparator" then
      if !trimEndSeparators || (i ≠ 0 && i ≠ row.length - 1 : Bool) then cells ++ [[]]
      else cells
    else
      let node :=
        if node.typ = some "text" &&
           (match row.get? (i + 1) with
            | none => true
            | some nxt => nxt.typ = some "tableSeparator" : Bool) then
          trimCellEnd node
        else node
      cells.dropLast ++ [(cells.getLast?.getD []) ++ [node]]) [[]])

/-- `parseTableRow`: parse the trimmed row with `state.inTable` set
(restoring it), then split the node list at `tableSeparator` nodes. -/
def parseTableRow (source : List Char) (cb : ParseCB) (st : MDState)
    (trimEndSeparators : Bool) :
    (Except PErr (List (List MDNode))) × MDState :=
  let prevInTable := st.inTable
  let (r, st1) := cb (jsTrim source) { st with inTable := true }
  match r with
  | .error e => (.error e, st1)
  | .ok (tableRow, _) =>
    (.ok (buildCells tableRow trimEndSeparators), { st1 with inTable := prevInTable })

/-- The row-by-row fold of `parseTableCells` (a thrown parse error
aborts, as a JS exception would). -/
def tableCellsAux (cb : ParseCB) (trimEnd : Bool) :
    List (List Char) → MDState →
    (Except PErr (List (List (List MDNode)))) × MDState
  | [], st => (.ok [], st)
  | rowText :: rest, st =>
    match parseTableRow rowText cb st trimEnd with
    | (.error e, st1) => (.error e, st1)
    | (.ok row, st1) =>
      match tableCellsAux cb trimEnd rest st1 with
      | (.error e, st2) => (.error e, st2)
      | (.ok rows, st2) => (.ok (row :: rows), st2)

/-- `parseTableCells`: map `parseTableRow` over the trimmed source's
lines. -/
def parseTableCells (source : List Char) (cb : ParseCB) (st : MDState)
    (trimEndSeparators : Bool) :
    (Except PErr (List (List (List MDNode)))) × MDState :=
  tableCellsAux cb trimEndSeparators (splitOnChar '\n' (jsTrim source)) st

/-- `parseTable(trimEndSeparators)`: set `state.inline = true`, parse
header/align/cells, set `state.inline = false` (the source sets it to
`false` unconditionally rather than restoring; on a thrown error the
reset never runs). -/
def parseTable (trimEndSeparators : Bool) (cap : JsMatch) (cb : ParseCB)
    (st : MDState) : (Except PErr ParseOut) × MDState :=
  let st := { st with inline := true }
  match parseTableRow (cap.g 1) cb st trimEndSeparators with
  | (.error e, st1) => (.error e, st1)
  | (.ok header, st1) =>
    let align := parseTableAlign (cap.g 2) trimEndSeparators
    match parseTableCells (cap.g 3) cb st1 trimEndSeparators with
    | (.error e, st2) => (.error e, st2)
    | (.ok cells, st2) =>
      (.ok (.one (.mk (some "table") none
        [("header", .arr (header.map .nodes)),
         ("align", .arr (align.map optStr)),
         ("cells", .arr (cells.map (fun row => .arr (row.map .nodes))))])),
       { st2 with inline := false })

/-! ## The default rule set -/

/-- Does `pat` occur in `l` (JS `indexOf(pat) !== -1`)? -/
def hasSub : List Char → List Char → Bool
  | l, pat =>
    match l with
    | [] => pat.isEmpty
    | _ :: rest => pat.isPrefixOf l || hasSub rest pat

/-- Value of a digit string (JS `+bullet` on `"<digits>."` bullets:
`Number` of a numeral with a trailing dot is its integer value). -/
def digitsVal (l : List Char) : Nat :=
  l.foldl (fun acc c => acc * 10 + (c.toNat - '0'.toNat)) 0

/-- `heading.parse`. -/
def headingParse (cap : JsMatch) (cb : ParseCB) (st : MDState) :
    (Except PErr ParseOut) × MDState :=
  let (r, st') := parseInline cb (jsTrim (cap.g 2)) st
  (r.map (fun ns => .one (.mk none none
    [("level", .nat (cap.g 1).length), ("content", .nodes ns)])), st')

/-- `lheading.parse` (rewrites its type to `heading`). -/
def lheadingParse (cap : JsMatch) (cb : ParseCB) (st : MDState) :
    (Except PErr ParseOut) × MDState :=
  let (r, st') := parseInline cb (cap.g 1) st
  (r.map (fun ns => .one (.mk (some "heading") none
    [("level", .nat (if cap.g 2 = ['='] then 1 else 2)), ("content", .nodes ns)])), st')

/-- `codeBlock.parse`: strip the four-space indents and trailing
newlines. -/
def codeBlockParse (cap : JsMatch) (_cb : ParseCB) (st : MDState) :
    (Except PErr ParseOut) × MDState :=
  let content := rxReplace1 false TRAILING_NL_R 0
    (rxReplaceG true CODE_BLOCK_STRIP_R 0 cap.matched (fun _ => [])) (fun _ => [])
  (.ok (.one (.mk none none [("lang", .undefined), ("content", .str content)])), st)

/-- `fence.parse` (rewrites its type to `codeBlock`; an absent or empty
language capture becomes `undefined` via `capture[2] || undefined`). -/
def fenceParse (cap : JsMatch) (_cb : ParseCB) (st : MDState) :
    (Except PErr ParseOut) × MDState :=
  let lang := if (cap.g 2).isEmpty then NVal.undefined else .str (cap.g 2)
  (.ok (.one (.mk (some "codeBlock") none
    [("lang", lang), ("content", .str (cap.g 3))])), st)

/-- `blockQuote.parse`: strip the `> ` prefixes and re-parse in the
same scope. -/
def blockQuoteParse (cap : JsMatch) (cb : ParseCB) (st : MDState) :
    (Except PErr ParseOut) × MDState :=
  let content := rxReplaceG true BLOCK_QUOTE_STRIP_R 0 cap.matched (fun _ => [])
  let (r, st') := cb content st
  (r.map (fun p => .one (.mk none none [("content", .nodes p.1)])), st')

/-- `list.match`: requires the previous capture to end at a line start
(`LIST_LOOKBEHIND_R`) and list-block scope; re-prepends the captured
indentation before running `LIST_R`. -/
def listMatch (source : List Char) (st : MDState) (prev : List Char) :
    Option JsMatch :=
  let isStartOfLineCapture := rxExec false LIST_LOOKBEHIND_R 1 prev
  let isListBlock := st.mlist || !st.inline
  match isStartOfLineCapture with
  | some m => if isListBlock then rxExec false LIST_R 2 (m.g 1 ++ source) else none
  | none => none

/-- The per-item loop of `list.parse`: unindent, strip the bullet,
decide paragraph mode (inheriting it into a last item), parse the item
with `state._list` set and `state.inline` per looseness, restoring
both afterwards (a thrown parse error skips the restore). -/
def listItemsAux (cb : ParseCB) (total : Nat) :
    List (List Char) → Nat → Bool → MDState →
    (Except PErr (List NVal)) × MDState
  | [], _, _, st => (.ok [], st)
  | item :: rest, i, lastWasPara, st =>
    let prefixCapture := rxExec false LIST_ITEM_PREFIX_R 2 item
    let space := match prefixCapture with
      | some m => m.matched.length
      | none => 0
    let content := rxReplace1 false LIST_ITEM_PREFIX_R 2
      (rxReplaceG true (spaceRegex space) 0 item (fun _ => [])) (fun _ => [])
    let isLastItem := i = total - 1
    let containsBlocks := hasSub content ('\n' :: '\n' :: [])
    let thisIsPara := containsBlocks || (isLastItem && lastWasPara)
    let oldStateInline := st.inline
    let oldStateList := st.mlist
    let adjustedContent :=
      if thisIsPara then
        rxReplace1 false LIST_ITEM_END_R 0 content (fun _ => '\n' :: '\n' :: [])
      else rxReplace1 false LIST_ITEM_END_R 0 content (fun _ => [])
    let (r, st1) := cb adjustedContent { st with mlist := true, inline := !thisIsPara }
    match r with
    | .error e => (.error e, st1)
    | .ok (ns, _) =>
      let st2 := { st1 with inline := oldStateInline, mlist := oldStateList }
      match listItemsAux cb total rest (i + 1) thisIsPara st2 with
      | (.error e, st3) => (.error e, st3)
      | (.ok tail, st3) => (.ok (.nodes ns :: tail), st3)

/-- `list.parse`. -/
def listParse (cap : JsMatch) (cb : ParseCB) (st : MDState) :
    (Except PErr ParseOut) × MDState :=
  let bullet := cap.g 2
  let ordered := bullet.length > 1
  let items := (rxMatchAll true LIST_ITEM_R
    (rxReplace1 false BLOCK_END_R 0 cap.matched (fun _ => ['\n']))).getD []
  match listItemsAux cb items.length items 0 false st with
  | (.error e, st1) => (.error e, st1)
  | (.ok itemContent, st1) =>
    (.ok (.one (.mk none none
      [("ordered", .bool ordered),
       ("start", if ordered then .nat (digitsVal (bullet.takeWhile jsDigit)) else .undefined),
       ("items", .arr itemContent)])), st1)

/-- `def.parse`: canonicalize, backpatch the pending ref nodes (here:
record patches against their serial numbers), store the def. -/
def defParse (cap : JsMatch) (_cb : ParseCB) (st : MDState) :
    (Except PErr ParseOut) × MDState :=
  let defk := canonRef (cap.g 1)
  let target := cap.g 2
  let title := cap.gOpt 3
  let newPatches := match st.mrefs.find? (·.1 = defk) with
    | some (_, sids) => sids.map (fun sid => (sid, (target, title)))
    | none => []
  let mdefs := if (st.mdefs.find? (·.1 = defk)).isSome then
      st.mdefs.map (fun e => if e.1 = defk then (defk, (target, title)) else e)
    else st.mdefs ++ [(defk, (target, title))]
  (.ok (.one (.mk none none
    [("def", .str defk), ("target", .str target), ("title", optStr title)])),
   { st with patches := st.patches ++ newPatches, mdefs := mdefs })

/-- `escape.parse`: a text node of the escaped character. -/
def escapeParse (cap : JsMatch) (_cb : ParseCB) (st : MDState) :
    (Except PErr ParseOut) × MDState :=
  (.ok (.one (.mk (some "text") none [("content", .str (cap.g 1))])), st)

/-- `tableSeparator.match`: only inside a table. -/
def tableSeparatorMatch (source : List Char) (st : MDState) (_ : List Char) :
    Option JsMatch :=
  if !st.inTable then none else rxExec false TABLE_SEPARATOR_R 0 source

/-- `tableSeparator.parse`. -/
def tableSeparatorParse (_cap : JsMatch) (_cb : ParseCB) (st : MDState) :
    (Except PErr ParseOut) × MDState :=
  (.ok (.one (.mk (some "tableSeparator") none [])), st)

/-- `autolink.parse`: a `link` node over a single text node. -/
def autolinkParse (cap : JsMatch) (_cb : ParseCB) (st : MDState) :
    (Except PErr ParseOut) × MDState :=
  (.ok (.one (.mk (some "link") none
    [("content", .nodes [.mk (some "text") none [("content", .str (cap.g 1))]]),
     ("target", .str (cap.g 1))])), st)

/-- `mailto.parse`: prepend `mailto:` unless already present
(case-insensitively). -/
def mailtoParse (cap : JsMatch) (_cb : ParseCB) (st : MDState) :
    (Except PErr ParseOut) × MDState :=
  let address := cap.g 1
  let target :=
    if rxTest false AUTOLINK_MAILTO_CHECK_R address then address
    else "mailto:".data ++ address
  (.ok (.one (.mk (some "link") none
    [("content", .nodes [.mk (some "text") none [("content", .str address)]]),
     ("target", .str target)])), st)

/-- `url.parse`. -/
def urlParse (cap : JsMatch) (_cb : ParseCB) (st : MDState) :
    (Except PErr ParseOut) × MDState :=
  (.ok (.one (.mk (some "link") none
    [("content", .nodes [.mk (some "text") none [("content", .str (cap.g 1))]]),
     ("target", .str (cap.g 1)), ("title", .undefined)])), st)

/-- `link.parse`: parse the label in the current scope, unescape the
target. -/
def linkParse (cap : JsMatch) (cb : ParseCB) (st : MDState) :
    (Except PErr ParseOut) × MDState :=
  let (r, st') := cb (cap.g 1) st
  (r.map (fun p => .one (.mk none none
    [("content", .nodes p.1),
     ("target", .str (unescapeUrl (cap.g 2))),
     ("title", optStr (cap.gOpt 3))])), st')

/-- `image.parse`. -/
def imageParse (cap : JsMatch) (_cb : ParseCB) (st : MDState) :
    (Except PErr ParseOut) × MDState :=
  (.ok (.one (.mk none none
    [("alt", .str (cap.g 1)),
     ("target", .str (unescapeUrl (cap.g 2))),
     ("title", optStr (cap.gOpt 3))])), st)

/-- `reflink.parse`. -/
def reflinkParse (cap : JsMatch) (cb : ParseCB) (st : MDState) :
    (Except PErr ParseOut) × MDState :=
  let (r, st1) := cb (cap.g 1) st
  match r with
  | .error e => (.error e, st1)
  | .ok (ns, _) =>
    let (node, st2) := parseRef cap st1
      (.mk (some "link") none [("content", .nodes ns)])
    (.ok (.one node), st2)

/-- `refimage.parse`. -/
def refimageParse (cap : JsMatch) (_cb : ParseCB) (st : MDState) :
    (Except PErr ParseOut) × MDState :=
  let (node, st') := parseRef cap st
    (.mk (some "image") none [("alt", .str (cap.g 1))])
  (.ok (.one node), st')

/-- `em.parse`: parse `capture[2] || capture[1]` in the current scope. -/
def emParse (cap : JsMatch) (cb : ParseCB) (st : MDState) :
    (Except PErr ParseOut) × MDState :=
  let inner := if (cap.g 2).isEmpty then cap.g 1 else cap.g 2
  let (r, st') := cb inner st
  (r.map (fun p => .one (.mk none none [("content", .nodes p.1)])), st')

/-- `inlineCode.parse`: strip one space adjacent to each fence. -/
def inlineCodeParse (cap : JsMatch) (_cb : ParseCB) (st : MDState) :
    (Except PErr ParseOut) × MDState :=
  let content := rxReplaceG false INLINE_CODE_ESCAPE_BACKTICKS_R 1 (cap.g 2) (fun m => m.g 1)
  (.ok (.one (.mk none none [("content", .str content)])), st)

/-- `text.parse`. -/
def textParse (cap : JsMatch) (_cb : ParseCB) (st : MDState) :
    (Except PErr ParseOut) × MDState :=
  (.ok (.one (.mk none none [("content", .str cap.matched)])), st)

/-- `em.quality`: `capture[0].length + 0.2`. -/
def emQuality (cap : JsMatch) (_ : MDState) (_ : List Char) : ℚ :=
  (cap.matched.length : ℚ) + 2 / 10

/-- `strong.quality`: `capture[0].length + 0.1`. -/
def strongQuality (cap : JsMatch) (_ : MDState) (_ : List Char) : ℚ :=
  (cap.matched.length : ℚ) + 1 / 10

/-- `u.quality`: `capture[0].length`. -/
def uQuality (cap : JsMatch) (_ : MDState) (_ : List Char) : ℚ :=
  (cap.matched.length : ℚ)

/-- The named rules, with the `order` values produced by the source's
`currOrder` counter (`em`, `strong` and `u` share order 21). -/
def headingRule : String × PRule :=
  ("heading", { order := 0, matchf := blockRegex HEADING_R 2, parsef := headingParse })

/-- `nptable`. -/
def nptableRule : String × PRule :=
  ("nptable", { order := 1, matchf := blockRegex NPTABLE_REGEX 3, parsef := parseTable false })

/-- `lheading`. -/
def lheadingRule : String × PRule :=
  ("lheading", { order := 2, matchf := blockRegex LHEADING_R 2, parsef := lheadingParse })

/-- `hr`. -/
def hrRule : String × PRule :=
  ("hr", { order := 3, matchf := blockRegex HR_R 1, parsef := ignoreCapture })

/-- `codeBlock`. -/
def codeBlockRule : String × PRule :=
  ("codeBlock", { order := 4, matchf := blockRegex CODE_BLOCK_R 0, parsef := codeBlockParse })

/-- `fence`. -/
def fenceRule : String × PRule :=
  ("fence", { order := 5, matchf := blockRegex FENCE_R 3, parsef := fenceParse })

/-- `blockQuote`. -/
def blockQuoteRule : String × PRule :=
  ("blockQuote", { order := 6, matchf := blockRegex BLOCK_QUOTE_R 2, parsef := blockQuoteParse })

/-- `list`. -/
def listRule : String × PRule :=
  ("list", { order := 7, matchf := listMatch, parsef := listParse })

/-- `def`. -/
def defRule : String × PRule :=
  ("def", { order := 8, matchf := blockRegex DEF_R 3, parsef := defParse })

/-- `table`. -/
def tableRule : String × PRule :=
  ("table", { order := 9, matchf := blockRegex TABLE_REGEX 3, parsef := parseTable true })

/-- `newline`. -/
def newlineRule : String × PRule :=
  ("newline", { order := 10, matchf := blockRegex NEWLINE_R 0, parsef := ignoreCapture })

/-- `paragraph`. -/
def paragraphRule : String × PRule :=
  ("paragraph", { order := 11, matchf := blockRegex PARAGRAPH_R 1, parsef := parseCaptureInline })

/-- `escape`. -/
def escapeRule : String × PRule :=
  ("escape", { order := 12, matchf := inlineRegex ESCAPE_R 1, parsef := escapeParse })

/-- `tableSeparator`. -/
def tableSeparatorRule : String × PRule :=
  ("tableSeparator", { order := 13, matchf := tableSeparatorMatch, parsef := tableSeparatorParse })

/-- `autolink`. -/
def autolinkRule : String × PRule :=
  ("autolink", { order := 14, matchf := inlineRegex AUTOLINK_R 1, parsef := autolinkParse })

/-- `mailto`. -/
def mailtoRule : String × PRule :=
  ("mailto", { order := 15, matchf := inlineRegex MAILTO_R 1, parsef := mailtoParse })

/-- `url`. -/
def urlRule : String × PRule :=
  ("url", { order := 16, matchf := inlineRegex URL_R 1, parsef := urlParse })

/-- `link`. -/
def linkRule : String × PRule :=
  ("link", { order := 17, matchf := inlineRegex LINK_R 3, parsef := linkParse })

/-- `image`. -/
def imageRule : String × PRule :=
  ("image", { order := 18, matchf := inlineRegex IMAGE_R 3, parsef := imageParse })

/-- `reflink`. -/
def reflinkRule : String × PRule :=
  ("reflink", { order := 19, matchf := inlineRegex REFLINK_R 2, parsef := reflinkParse })

/-- `refimage`. -/
def refimageRule : String × PRule :=
  ("refimage", { order := 20, matchf := inlineRegex REFIMAGE_R 2, parsef := refimageParse })

/-- `em` (order 21, with quality). -/
def emRule : String × PRule :=
  ("em", { order := 21, matchf := inlineRegex EM_R 2, quality? := some emQuality,
           parsef := emParse })

/-- `strong` (order 21, with quality). -/
def strongRule : String × PRule :=
  ("strong", { order := 21, matchf := inlineRegex STRONG_R 1, quality? := some strongQuality,
               parsef := parseCaptureInline })

/-- `u` (order 21, with quality). -/
def uRule : String × PRule :=
  ("u", { order := 21, matchf := inlineRegex U_R 1, quality? := some uQuality,
          parsef := parseCaptureInline })

/-- `del`. -/
def delRule : String × PRule :=
  ("del", { order := 22, matchf := inlineRegex DEL_R 1, parsef := parseCaptureInline })

/-- `inlineCode`. -/
def inlineCodeRule : String × PRule :=
  ("inlineCode", { order := 23, matchf := inlineRegex INLINE_CODE_R 2, parsef := inlineCodeParse })

/-- `br`. -/
def brRule : String × PRule :=
  ("br", { order := 24, matchf := anyScopeRegex BR_R 0, parsef := ignoreCapture })

/-- `text` (the universal fallback). -/
def textRule : String × PRule :=
  ("text", { order := 25, matchf := anyScopeRegex TEXT_R 0, parsef := textParse })


/-- The rules that precede `em` in the sorted rule list. -/
def rulesBeforeEm : List (String × PRule) :=
  [headingRule, nptableRule, lheadingRule, hrRule, codeBlockRule, fenceRule,
   blockQuoteRule, listRule, defRule, tableRule, newlineRule, paragraphRule,
   escapeRule, tableSeparatorRule, autolinkRule, mailtoRule, urlRule, linkRule,
   imageRule, reflinkRule, refimageRule]

/-- The rules that follow `u` in the sorted rule list. -/
def rulesFromDel : List (String × PRule) :=
  [delRule, inlineCodeRule, brRule, textRule]

/-- The rule list `parserFor(defaultRules)` builds: the `Array` entry is
filtered out (it has no `match`), and the rest are sorted by ascending
`order`, then quality-bearing rules first, then ascending name — which,
for the default rules, is their definition order except that the
equal-order trio `em`/`strong`/`u` is ordered by name. -/
def defaultRuleList : List (String × PRule) :=
  rulesBeforeEm ++ emRule :: strongRule :: uRule :: rulesFromDel

/-! ## HTML tag emitter and HTML output -/

/-- Decimal digits of `n` (auxiliary for `natToStr`). -/
def natToStrAux : Nat → Nat → List Char
  | 0, _ => []
  | f + 1, n =>
    if n < 10 then [Char.ofNat (48 + n)]
    else natToStrAux f (n / 10) ++ [Char.ofNat (48 + n % 10)]

/-- JS `String(n)` for a natural number. -/
def natToStr (n : Nat) : List Char := natToStrAux (n + 1) n

/-- JS truthiness of a field value (falsy attributes are omitted). -/
def truthy : NVal → Bool
  | .str s => !s.isEmpty
  | .nat n => n ≠ 0
  | .bool b => b
  | .undefined => false
  | .null => false
  | .nodes _ => true
  | .arr _ => true

/-- `String(attr)` for the values that reach attribute emission. -/
def nvalToStr : NVal → List Char
  | .str s => s
  | .nat n => natToStr n
  | .bool b => if b then "true".data else "false".data
  | _ => []

/-- `htmlTag`: emit `<tag attrs>content</tag>` (or just the opening tag
when `isClosed` is false), attribute names and values passed through
`sanitizeText` and falsy attributes filtered out. -/
def htmlTag (tagName : List Char) (content : List Char)
    (attributes : List (String × NVal)) (isClosed : Bool) : List Char :=
  let attributeString := attributes.foldl (fun acc (p : String × NVal) =>
    if truthy p.2 then
      acc ++ [' '] ++ sanitizeText p.1.data ++ ['=', '"'] ++
        sanitizeText (nvalToStr p.2) ++ ['"']
    else acc) []
  let unclosedTag := ['<'] ++ tagName ++ attributeString ++ ['>']
  if isClosed then unclosedTag ++ content ++ ['<', '/'] ++ tagName ++ ['>']
  else unclosedTag

/-- Read a node's string `content` (concatenating is only done on text
nodes, whose content is a string). -/
def strContent (n : MDNode) : List Char :=
  match n.getF "content" with
  | some (.str s) => s
  | _ => []

/-- The recursion argument of the HTML output dispatcher: a single
node, a sibling list (the `Array` rule), or the map-join loops of the
`list` and `table` html outputs. -/
inductive HtmlIn where
  | node : MDNode → HtmlIn
  | list : List MDNode → HtmlIn
  /-- `node.items.map(item => htmlTag('li', output(item))).join('')` -/
  | lis : List NVal → HtmlIn
  /-- header cells: `htmlTag('th', output(content), {style, scope})` -/
  | ths : List NVal → List NVal → Nat → HtmlIn
  /-- one row's cells: `htmlTag('td', output(content), {style})` -/
  | tds : List NVal → List NVal → Nat → HtmlIn
  /-- body rows: `htmlTag('tr', cols)` -/
  | trs : List NVal → List NVal → HtmlIn

/-- `getStyle(colIndex)` of the table html output. -/
def tableStyle (align : List NVal) (i : Nat) : List Char :=
  match align.get? i with
  | some (.str a) => "text-align:".data ++ a ++ [';']
  | _ => []

/--
The HTML output dispatcher built by `outputFor(defaultRules, 'html')`:
arrays go through the default `Array.html` rule (which folds runs of
consecutive `text` nodes into one before outputting), and every other
node through its rule's `html` output.  `none` models a crash: an
unknown node type, a rule whose `html` output is `null`
(`nptable`, `lheading`, `fence`, `escape`, `autolink`, `mailto`, `url`,
`reflink`, `refimage` — these never appear as a parsed node's `type`),
an ill-shaped node, or fuel exhaustion.  The html outputs do not
mutate the state, which is therefore not threaded.
-/
def htmlOutA (st : MDState) : Nat → HtmlIn → Option (List Char)
  | 0, _ => none
  | _ + 1, .list [] => some []
  | f + 1, .list (n :: rest) =>
    if n.typ = some "text" then
      let run := rest.takeWhile (fun m => m.typ = some "text")
      let rest' := rest.drop run.length
      let merged : MDNode := .mk (some "text") none
        [("content", .str ((n :: run).foldl (fun acc m => acc ++ strContent m) []))]
      match htmlOutA st f (.node merged), htmlOutA st f (.list rest') with
      | some out, some tail => some (out ++ tail)
      | _, _ => none
    else
      match htmlOutA st f (.node n), htmlOutA st f (.list rest) with
      | some out, some tail => some (out ++ tail)
      | _, _ => none
  | _ + 1, .lis [] => some []
  | f + 1, .lis (item :: rest) =>
    match item with
    | .nodes ns =>
      match htmlOutA st f (.list ns), htmlOutA st f (.lis rest) with
      | some inner, some tail => some (htmlTag "li".data inner [] true ++ tail)
      | _, _ => none
    | _ => none
  | _ + 1, .ths [] _ _ => some []
  | f + 1, .ths (cell :: rest) align i =>
    match cell with
    | .nodes ns =>
      match htmlOutA st f (.list ns), htmlOutA st f (.ths rest align (i + 1)) with
      | some inner, some tail =>
        some (htmlTag "th".data inner
          [("style", .str (tableStyle align i)), ("scope", .str "col".data)] true ++ tail)
      | _, _ => none
    | _ => none
  | _ + 1, .tds [] _ _ => some []
  | f + 1, .tds (cell :: rest) align c =>
    match cell with
    | .nodes ns =>
      match htmlOutA st f (.list ns), htmlOutA st f (.tds rest align (c + 1)) with
      | some inner, some tail =>
        some (htmlTag "td".data inner [("style", .str (tableStyle align c))] true ++ tail)
      | _, _ => none
    | _ => none
  | _ + 1, .trs [] _ => some []
  | f + 1, .trs (row :: rest) align =>
    match row with
    | .arr cells =>
      match htmlOutA st f (.tds cells align 0), htmlOutA st f (.trs rest align) with
      | some cols, some tail => some (htmlTag "tr".data cols [] true ++ tail)
      | _, _ => none
    | _ => none
  | f + 1, .node node =>
    if node.typ = some "heading" then
      match node.getF "level", node.getF "content" with
      | some (.nat lvl), some (.nodes ns) =>
        (htmlOutA st f (.list ns)).map (fun inner =>
          htmlTag ('h' :: natToStr lvl) inner [] true)
      | _, _ => none
    else if node.typ = some "hr" then some "<hr>".data
    else if node.typ = some "codeBlock" then
      match node.getF "lang", node.getF "content" with
      | some lang, some (.str content) =>
        let className : NVal :=
          if truthy lang then .str ("markdown-code-".data ++ nvalToStr lang) else .undefined
        some (htmlTag "pre".data
          (htmlTag "code".data (sanitizeText content) [("class", className)] true) [] true)
      | _, _ => none
    else if node.typ = some "blockQuote" then
      match node.getF "content" with
      | some (.nodes ns) =>
        (htmlOutA st f (.list ns)).map (fun inner =>
          htmlTag "blockquote".data inner [] true)
      | _ => none
    else if node.typ = some "list" then
      match node.getF "ordered", node.getF "start", node.getF "items" with
      | some ordered, some startv, some (.arr items) =>
        (htmlOutA st f (.lis items)).map (fun listItems =>
          htmlTag (if truthy ordered then "ol".data else "ul".data) listItems
            [("start", startv)] true)
      | _, _, _ => none
    else if node.typ = some "def" then some []
    else if node.typ = some "table" then
      match node.getF "header", node.getF "align", node.getF "cells" with
      | some (.arr header), some (.arr align), some (.arr cells) =>
        match htmlOutA st f (.ths header align 0), htmlOutA st f (.trs cells align) with
        | some headers, some rows =>
          some (htmlTag "table".data
            (htmlTag "thead".data (htmlTag "tr".data headers [] true) [] true ++
             htmlTag "tbody".data rows [] true) [] true)
        | _, _ => none
      | _, _, _ => none
    else if node.typ = some "newline" then some ['\n']
    else if node.typ = some "paragraph" then
      match node.getF "content" with
      | some (.nodes ns) =>
        (htmlOutA st f (.list ns)).map (fun inner =>
          htmlTag "div".data inner [("class", .str "paragraph".data)] true)
      | _ => none
    else if node.typ = some "tableSeparator" then some " &vert; ".data
    else if node.typ = some "link" then
      match node.getF "content" with
      | some (.nodes ns) =>
        (htmlOutA st f (.list ns)).map (fun inner =>
          let target := match node.getF "target" with
            | some (.str t) => some t
            | _ => none
          let title := (node.getF "title").getD .undefined
          htmlTag "a".data inner
            [("href", match sanitizeUrl target with
                      | some u => .str u
                      | none => .null),
             ("title", title)] true)
      | _ => none
    else if node.typ = some "image" then
      let target := match node.getF "target" with
        | some (.str t) => some t
        | _ => none
      let alt := (node.getF "alt").getD .undefined
      let title := (node.getF "title").getD .undefined
      some (htmlTag "img".data []
        [("src", match sanitizeUrl target with
                 | some u => .str u
                 | none => .null),
         ("alt", alt), ("title", title)] false)
    else if node.typ = some "em" then
      match node.getF "content" with
      | some (.nodes ns) =>
        (htmlOutA st f (.list ns)).map (fun inner => htmlTag "em".data inner [] true)
      | _ => none
    else if node.typ = some "strong" then
      match node.getF "content" with
      | some (.nodes ns) =>
        (htmlOutA st f (.list ns)).map (fun inner => htmlTag "strong".data inner [] true)
      | _ => none
    else if node.typ = some "u" then
      match node.getF "content" with
      | some (.nodes ns) =>
        (htmlOutA st f (.list ns)).map (fun inner => htmlTag "u".data inner [] true)
      | _ => none
    else if node.typ = some "del" then
      match node.getF "content" with
      | some (.nodes ns) =>
        (htmlOutA st f (.list ns)).map (fun inner => htmlTag "del".data inner [] true)
      | _ => none
    else if node.typ = some "inlineCode" then
      match node.getF "content" with
      | some (.str content) =>
        some (htmlTag "code".data (sanitizeText content) [] true)
      | _ => none
    else if node.typ = some "br" then some "<br>".data
    else if node.typ = some "text" then
      match node.getF "content" with
      | some (.str content) => some (sanitizeText content)
      | _ => none
    else none

/-! ## Default entry points -/

/-- A parse fuel bound amply exceeding the needs of the concrete runs
in this file. -/
def FUEL : Nat := 1000

/-- `defaultRawParse = parserFor(defaultRules)`. -/
def defaultRawParse (fuel : Nat) (source : List Char) (st? : Option MDState) :
    (Except PErr (List MDNode × Nat)) × MDState :=
  outerParse defaultRuleList fuel source st?

/-- `defaultBlockParse`: force `state.inline = false`. -/
def defaultBlockParse (fuel : Nat) (source : List Char) (st? : Option MDState) :
    (Except PErr (List MDNode × Nat)) × MDState :=
  let st := st?.getD {}
  defaultRawParse fuel source (some { st with inline := false })

/-- `defaultInlineParse`: force `state.inline = true`. -/
def defaultInlineParse (fuel : Nat) (source : List Char) (st? : Option MDState) :
    (Except PErr (List MDNode × Nat)) × MDState :=
  let st := st?.getD {}
  defaultRawParse fuel source (some { st with inline := true })

/-- `BLOCK_END_R.test(source)` — the block-termination test of
`defaultImplicitParse`. -/
def implicitIsBlock (source : List Char) : Bool := rxTest false BLOCK_END_R source

/-- `defaultImplicitParse`: set `state.inline = !BLOCK_END_R.test(source)`
and parse with the default rules. -/
def defaultImplicitParse (fuel : Nat) (source : List Char) (st? : Option MDState) :
    (Except PErr (List MDNode × Nat)) × MDState :=
  let st := st?.getD {}
  defaultRawParse fuel source (some { st with inline := !implicitIsBlock source })

/-- `defaultHtmlOutput = outputFor(defaultRules, 'html')`. -/
def defaultHtmlOutput (fuel : Nat) (ast : List MDNode) (st? : Option MDState) :
    Option (List Char) :=
  htmlOutA (st?.getD {}) fuel (.list ast)

/-- `markdownToHtml`: `defaultHtmlOutput(defaultBlockParse(source, state), state)`.
When a state is supplied, the output sees the state as mutated by the
parse (JS passes the same object to both); `none` models a thrown
error. -/
def markdownToHtml (fuel : Nat) (source : String) (st? : Option MDState) :
    Option String :=
  match defaultBlockParse fuel source.data st? with
  | (.ok (nodes, _), stAfter) =>
    (defaultHtmlOutput fuel nodes (st?.map (fun _ => stAfter))).map String.mk
  | _ => none

/-! ## Verification-layer definitions

Spec-side and proof-side definitions used by the theorems below: a
decidable node-typing check, the specification's emphasis tie-break
function, the specification's five-character entity map shape, the
frame predicate for client state fields, the regex the specification
claims `defaultImplicitParse` uses, and two one-rule tables exercising
the dispatcher's type assignment.
-/

/-- Does a node carry a non-empty string `type`? -/
def typedOk (nd : MDNode) : Bool :=
  match nd.typ with
  | some t => !(t == "")
  | none => false

/-- The specification's emphasis tie-break, stated on the lengths of
the full captures of `em`, `strong` and `u` (absent when the rule did
not match): the longer capture wins, and on ties the earlier rule of
`em`, `strong`, `u` is kept, a later candidate winning only when
strictly longer. -/
def emStrongUPick : Option Nat → Option Nat → Option Nat → Option String
  | none, none, none => none
  | some _, none, none => some "em"
  | none, some _, none => some "strong"
  | none, none, some _ => some "u"
  | some a, some b, none => if b > a then some "strong" else some "em"
  | some a, none, some c => if c > a then some "u" else some "em"
  | none, some b, some c => if c > b then some "u" else some "strong"
  | some a, some b, some c =>
    if b > a then (if c > b then some "u" else some "strong")
    else (if c > a then some "u" else some "em")

/-- The five characters `SANITIZE_TEXT_R` actually matches. -/
def sanHit (c : Char) : Bool :=
  c = '<' || c = '>' || c = '&' || c = '"' || c = '\''

/-- The character-by-character escaping map `sanitizeText` implements:
each of the five characters of `SANITIZE_TEXT_R` becomes its entity,
every other character (including `/` and the backtick) is unchanged. -/
def sanitizeTextSpec (l : List Char) : List Char :=
  l.flatMap fun c => if sanHit c then SANITIZE_TEXT_CODES c else [c]

/-- A parse callback that never changes the client-supplied `extra`
fields. -/
abbrev extraPres (cb : ParseCB) : Prop :=
  ∀ s st, ((cb s st).2).extra = st.extra

/-- `^.*\n{2,}$` — the regex the specification claims
`defaultImplicitParse` tests (the source's `BLOCK_END_R` is
`/\n{2,}$/`, without the leading `^.*`). -/
def CLAIM_IMPLICIT_R : Rx :=
  seqL [.bol, starG rdot, .rep 2 none false (.lit '\n'), .eol]

/-- A one-rule table whose rule consumes the whole source and returns a
single node with no `type` (exercising the dispatcher's type
assignment). -/
def oneRule : String × PRule :=
  ("t", { order := 0, matchf := fun source _ _ => some ⟨0, source, []⟩,
          parsef := fun _ _ st => (.ok (.one (.mk none none [])), st) })

/-- A one-rule table whose rule returns an array result containing an
untyped node (the dispatcher assigns no type to array results). -/
def arrRule : String × PRule :=
  ("t", { order := 0, matchf := fun source _ _ => some ⟨0, source, []⟩,
          parsef := fun _ _ st => (.ok (.many [.mk none none []]), st) })

/- The embedding is executable; registering the definitions' equations
with `simp` lets concrete runs be evaluated inside proofs.  The
regex-engine level (`reL` and the regex constants) is deliberately not
registered globally: concrete engine runs are evaluated once each, in
the staging section below, and the pipeline-level proofs then use those
staged results as rewrite rules. -/
attribute [simp] natToStrAux natToStr jsSpace jsWord jsDigit btick preprocess
  jsTrim JsMatch.g JsMatch.gOpt SANITIZE_TEXT_CODES hexDigit utf8Cont
  utf8Decode pctRun decodeURIComponentM urlAllowed asciiLower sanitizeUrl
  MDNode.typ MDNode.serial MDNode.fields MDNode.getF MDNode.setF
  MDNode.withTyp MDNode.withSerial optStr prevStr ruleQuality bestStep scanRules nestedParse patchNode patchFields patchVal
  patchNodes patchVals outerParse parseInline parseBlock parseCaptureInline
  ignoreCapture parseRef parseTableAlignCapture splitOnChar parseTableAlign
  trimCellEnd buildCells parseTableRow tableCellsAux parseTableCells
  parseTable hasSub digitsVal headingParse lheadingParse codeBlockParse
  fenceParse blockQuoteParse listMatch listItemsAux listParse defParse
  escapeParse tableSeparatorMatch tableSeparatorParse autolinkParse
  mailtoParse urlParse linkParse imageParse reflinkParse refimageParse
  emParse inlineCodeParse textParse emQuality strongQuality uQuality
  rulesBeforeEm rulesFromDel defaultRuleList
  truthy nvalToStr htmlTag strContent tableStyle htmlOutA FUEL
  defaultRawParse defaultBlockParse defaultInlineParse implicitIsBlock
  defaultImplicitParse defaultHtmlOutput markdownToHtml Except.map
  Char.ofNat Nat.isValidChar List.range List.range.loop


/-! ## Evaluation rules for applied matchers and rule-record fields -/

/-- Evaluation rule for an applied inline matcher. -/
@[simp] theorem inlineRegex_apply (rx : Rx) (ng : Nat) (source : List Char)
    (st : MDState) (prev : List Char) :
    inlineRegex rx ng source st prev =
      if st.inline then rxExec false rx ng source else none := rfl

/-- Evaluation rule for an applied block matcher. -/
@[simp] theorem blockRegex_apply (rx : Rx) (ng : Nat) (source : List Char)
    (st : MDState) (prev : List Char) :
    blockRegex rx ng source st prev =
      if st.inline then none else rxExec false rx ng source := rfl

/-- Evaluation rule for an applied any-scope matcher. -/
@[simp] theorem anyScopeRegex_apply (rx : Rx) (ng : Nat) (source : List Char)
    (st : MDState) (prev : List Char) :
    anyScopeRegex rx ng source st prev = rxExec false rx ng source := rfl

/-! Projection lemmas for the rule constants, letting concrete runs
evaluate without unfolding the full rule records. -/

/-- Field values of `headingRule`. -/
@[simp] theorem headingRule_fields :
    headingRule.1 = "heading" ∧ headingRule.2.order = 0 ∧
    headingRule.2.matchf = blockRegex HEADING_R 2 ∧
    headingRule.2.quality? = none ∧ headingRule.2.parsef = headingParse :=
  ⟨rfl, rfl, rfl, rfl, rfl⟩

/-- Field values of `nptableRule`. -/
@[simp] theorem nptableRule_fields :
    nptableRule.1 = "nptable" ∧ nptableRule.2.order = 1 ∧
    nptableRule.2.matchf = blockRegex NPTABLE_REGEX 3 ∧
    nptableRule.2.quality? = none ∧ nptableRule.2.parsef = parseTable false :=
  ⟨rfl, rfl, rfl, rfl, rfl⟩

/-- Field values of `lheadingRule`. -/
@[simp] theorem lheadingRule_fields :
    lheadingRule.1 = "lheading" ∧ lheadingRule.2.order = 2 ∧
    lheadingRule.2.matchf = blockRegex LHEADING_R 2 ∧
    lheadingRule.2.quality? = none ∧ lheadingRule.2.parsef = lheadingParse :=
  ⟨rfl, rfl, rfl, rfl, rfl⟩

/-- Field values of `hrRule`. -/
@[simp] theorem hrRule_fields :
    hrRule.1 = "hr" ∧ hrRule.2.order = 3 ∧
    hrRule.2.matchf = blockRegex HR_R 1 ∧
    hrRule.2.quality? = none ∧ hrRule.2.parsef = ignoreCapture :=
  ⟨rfl, rfl, rfl, rfl, rfl⟩

/-- Field values of `codeBlockRule`. -/
@[simp] theorem codeBlockRule_fields :
    codeBlockRule.1 = "codeBlock" ∧ codeBlockRule.2.order = 4 ∧
    codeBlockRule.2.matchf = blockRegex CODE_BLOCK_R 0 ∧
    codeBlockRule.2.quality? = none ∧ codeBlockRule.2.parsef = codeBlockParse :=
  ⟨rfl, rfl, rfl, rfl, rfl⟩

/-- Field values of `fenceRule`. -/
@[simp] theorem fenceRule_fields :
    fenceRule.1 = "fence" ∧ fenceRule.2.order = 5 ∧
    fenceRule.2.matchf = blockRegex FENCE_R 3 ∧
    fenceRule.2.quality? = none ∧ fenceRule.2.parsef = fenceParse :=
  ⟨rfl, rfl, rfl, rfl, rfl⟩

/-- Field values of `blockQuoteRule`. -/
@[simp] theorem blockQuoteRule_fields :
    blockQuoteRule.1 = "blockQuote" ∧ blockQuoteRule.2.order = 6 ∧
    blockQuoteRule.2.matchf = blockRegex BLOCK_QUOTE_R 2 ∧
    blockQuoteRule.2.quality? = none ∧ blockQuoteRule.2.parsef = blockQuoteParse :=
  ⟨rfl, rfl, rfl, rfl, rfl⟩

/-- Field values of `listRule`. -/
@[simp] theorem listRule_fields :
    listRule.1 = "list" ∧ listRule.2.order = 7 ∧
    listRule.2.matchf = listMatch ∧
    listRule.2.quality? = none ∧ listRule.2.parsef = listParse :=
  ⟨rfl, rfl, rfl, rfl, rfl⟩

/-- Field values of `defRule`. -/
@[simp] theorem defRule_fields :
    defRule.1 = "def" ∧ defRule.2.order = 8 ∧
    defRule.2.matchf = blockRegex DEF_R 3 ∧
    defRule.2.quality? = none ∧ defRule.2.parsef = defParse :=
  ⟨rfl, rfl, rfl, rfl, rfl⟩

/-- Field values of `tableRule`. -/
@[simp] theorem tableRule_fields :
    tableRule.1 = "table" ∧ tableRule.2.order = 9 ∧
    tableRule.2.matchf = blockRegex TABLE_REGEX 3 ∧
    tableRule.2.quality? = none ∧ tableRule.2.parsef = parseTable true :=
  ⟨rfl, rfl, rfl, rfl, rfl⟩

/-- Field values of `newlineRule`. -/
@[simp] theorem newlineRule_fields :
    newlineRule.1 = "newline" ∧ newlineRule.2.order = 10 ∧
    newlineRule.2.matchf = blockRegex NEWLINE_R 0 ∧
    newlineRule.2.quality? = none ∧ newlineRule.2.parsef = ignoreCapture :=
  ⟨rfl, rfl, rfl, rfl, rfl⟩

/-- Field values of `paragraphRule`. -/
@[simp] theorem paragraphRule_fields :
    paragraphRule.1 = "paragraph" ∧ paragraphRule.2.order = 11 ∧
    paragraphRule.2.matchf = blockRegex PARAGRAPH_R 1 ∧
    paragraphRule.2.quality? = none ∧ paragraphRule.2.parsef = parseCaptureInline :=
  ⟨rfl, rfl, rfl, rfl, rfl⟩

/-- Field values of `escapeRule`. -/
@[simp] theorem escapeRule_fields :
    escapeRule.1 = "escape" ∧ escapeRule.2.order = 12 ∧
    escapeRule.2.matchf = inlineRegex ESCAPE_R 1 ∧
    escapeRule.2.quality? = none ∧ escapeRule.2.parsef = escapeParse :=
  ⟨rfl, rfl, rfl, rfl, rfl⟩

/-- Field values of `tableSeparatorRule`. -/
@[simp] theorem tableSeparatorRule_fields :
    tableSeparatorRule.1 = "tableSeparator" ∧ tableSeparatorRule.2.order = 13 ∧
    tableSeparatorRule.2.matchf = tableSeparatorMatch ∧
    tableSeparatorRule.2.quality? = none ∧ tableSeparatorRule.2.parsef = tableSeparatorParse :=
  ⟨rfl, rfl, rfl, rfl, rfl⟩

/-- Field values of `autolinkRule`. -/
@[simp] theorem autolinkRule_fields :
    autolinkRule.1 = "autolink" ∧ autolinkRule.2.order = 14 ∧
    autolinkRule.2.matchf = inlineRegex AUTOLINK_R 1 ∧
    autolinkRule.2.quality? = none ∧ autolinkRule.2.parsef = autolinkParse :=
  ⟨rfl, rfl, rfl, rfl, rfl⟩

/-- Field values of `mailtoRule`. -/
@[simp] theorem mailtoRule_fields :
    mailtoRule.1 = "mailto" ∧ mailtoRule.2.order = 15 ∧
    mailtoRule.2.matchf = inlineRegex MAILTO_R 1 ∧
    mailtoRule.2.quality? = none ∧ mailtoRule.2.parsef = mailtoParse :=
  ⟨rfl, rfl, rfl, rfl, rfl⟩

/-- Field values of `urlRule`. -/
@[simp] theorem urlRule_fields :
    urlRule.1 = "url" ∧ urlRule.2.order = 16 ∧
    urlRule.2.matchf = inlineRegex URL_R 1 ∧
    urlRule.2.quality? = none ∧ urlRule.2.parsef = urlParse :=
  ⟨rfl, rfl, rfl, rfl, rfl⟩

/-- Field values of `linkRule`. -/
@[simp] theorem linkRule_fields :
    linkRule.1 = "link" ∧ linkRule.2.order = 17 ∧
    linkRule.2.matchf = inlineRegex LINK_R 3 ∧
    linkRule.2.quality? = none ∧ linkRule.2.parsef = linkParse :=
  ⟨rfl, rfl, rfl, rfl, rfl⟩

/-- Field values of `imageRule`. -/
@[simp] theorem imageRule_fields :
    imageRule.1 = "image" ∧ imageRule.2.order = 18 ∧
    imageRule.2.matchf = inlineRegex IMAGE_R 3 ∧
    imageRule.2.quality? = none ∧ imageRule.2.parsef = imageParse :=
  ⟨rfl, rfl, rfl, rfl, rfl⟩

/-- Field values of `reflinkRule`. -/
@[simp] theorem reflinkRule_fields :
    reflinkRule.1 = "reflink" ∧ reflinkRule.2.order = 19 ∧
    reflinkRule.2.matchf = inlineRegex REFLINK_R 2 ∧
    reflinkRule.2.quality? = none ∧ reflinkRule.2.parsef = reflinkParse :=
  ⟨rfl, rfl, rfl, rfl, rfl⟩

/-- Field values of `refimageRule`. -/
@[simp] theorem refimageRule_fields :
    refimageRule.1 = "refimage" ∧ refimageRule.2.order = 20 ∧
    refimageRule.2.matchf = inlineRegex REFIMAGE_R 2 ∧
    refimageRule.2.quality? = none ∧ refimageRule.2.parsef = refimageParse :=
  ⟨rfl, rfl, rfl, rfl, rfl⟩

/-- Field values of `emRule`. -/
@[simp] theorem emRule_fields :
    emRule.1 = "em" ∧ emRule.2.order = 21 ∧
    emRule.2.matchf = inlineRegex EM_R 2 ∧
    emRule.2.quality? = some emQuality ∧ emRule.2.parsef = emParse :=
  ⟨rfl, rfl, rfl, rfl, rfl⟩

/-- Field values of `strongRule`. -/
@[simp] theorem strongRule_fields :
    strongRule.1 = "strong" ∧ strongRule.2.order = 21 ∧
    strongRule.2.matchf = inlineRegex STRONG_R 1 ∧
    strongRule.2.quality? = some strongQuality ∧ strongRule.2.parsef = parseCaptureInline :=
  ⟨rfl, rfl, rfl, rfl, rfl⟩

/-- Field values of `uRule`. -/
@[simp] theorem uRule_fields :
    uRule.1 = "u" ∧ uRule.2.order = 21 ∧
    uRule.2.matchf = inlineRegex U_R 1 ∧
    uRule.2.quality? = some uQuality ∧ uRule.2.parsef = parseCaptureInline :=
  ⟨rfl, rfl, rfl, rfl, rfl⟩

/-- Field values of `delRule`. -/
@[simp] theorem delRule_fields :
    delRule.1 = "del" ∧ delRule.2.order = 22 ∧
    delRule.2.matchf = inlineRegex DEL_R 1 ∧
    delRule.2.quality? = none ∧ delRule.2.parsef = parseCaptureInline :=
  ⟨rfl, rfl, rfl, rfl, rfl⟩

/-- Field values of `inlineCodeRule`. -/
@[simp] theorem inlineCodeRule_fields :
    inlineCodeRule.1 = "inlineCode" ∧ inlineCodeRule.2.order = 23 ∧
    inlineCodeRule.2.matchf = inlineRegex INLINE_CODE_R 2 ∧
    inlineCodeRule.2.quality? = none ∧ inlineCodeRule.2.parsef = inlineCodeParse :=
  ⟨rfl, rfl, rfl, rfl, rfl⟩

/-- Field values of `brRule`. -/
@[simp] theorem brRule_fields :
    brRule.1 = "br" ∧ brRule.2.order = 24 ∧
    brRule.2.matchf = anyScopeRegex BR_R 0 ∧
    brRule.2.quality? = none ∧ brRule.2.parsef = ignoreCapture :=
  ⟨rfl, rfl, rfl, rfl, rfl⟩

/-- Field values of `textRule`. -/
@[simp] theorem textRule_fields :
    textRule.1 = "text" ∧ textRule.2.order = 25 ∧
    textRule.2.matchf = anyScopeRegex TEXT_R 0 ∧
    textRule.2.quality? = none ∧ textRule.2.parsef = textParse :=
  ⟨rfl, rfl, rfl, rfl, rfl⟩


/-! ## Dispatcher and sanitizer theorems -/

theorem nestedParse_consumed (rules : List (String × PRule)) :
    ∀ fuel src st ns n st2,
      nestedParse rules fuel src st = (.ok (ns, n), st2) → n = src.length := by
  intro fuel
  induction fuel with
  | zero =>
    intro src st ns n st2 h
    simp only [nestedParse, Prod.mk.injEq] at h
    exact absurd h.1 (by simp)
  | succ fuel ih =>
    intro src st ns n st2 h
    cases src with
    | nil =>
      simp only [nestedParse, Prod.mk.injEq, Except.ok.injEq] at h
      simp [h.1.2.symm]
    | cons c cs =>
      simp only [nestedParse] at h
      split at h
      next => exact absurd h (by simp)
      next b heq =>
        split at h
        next => exact absurd h (by simp)
        next =>
          split at h
          next e st1 hp => exact absurd h (by simp)
          next out st1 hp =>
            split at h
            next e st3 hn => exact absurd h (by simp)
            next ns2 n2 st3 hn =>
              have hlen := ih _ _ _ _ _ hn
              have hdrop : ((c :: cs).drop b.capture.matched.length).length =
                  (c :: cs).length - b.capture.matched.length := by
                simp [List.length_drop]
              simp only [Prod.mk.injEq, Except.ok.injEq] at h
              obtain ⟨⟨hns, hn2⟩, hst⟩ := h
              subst hn2
              omega

theorem blockParse_consumes (fuel : Nat) (s : List Char) (st? : Option MDState)
    (ns : List MDNode) (n : Nat) (stf : MDState)
    (hd : (st?.getD {}).disableAutoBlockNewlines = false)
    (h : defaultBlockParse fuel s st? = (.ok (ns, n), stf)) :
    n = (preprocess (s ++ '\n' :: '\n' :: [])).length := by
  simp only [defaultBlockParse, defaultRawParse, outerParse, Option.getD_some, hd,
    Bool.not_false, Bool.and_self, if_true] at h
  split at h
  next nodes n0 st0 heq =>
    simp only [Prod.mk.injEq, Except.ok.injEq] at h
    obtain ⟨⟨-, hn⟩, -⟩ := h
    subst hn
    exact nestedParse_consumed _ _ _ _ _ _ _ heq
  next r hne =>
    exact absurd h (hne ns n stf)

theorem bestStep_cases (src : List Char) (st : MDState) (prev : List Char)
    (e : String × PRule) (best : Option Best) :
    bestStep src st prev e best = best ∨
      ∃ cap q, bestStep src st prev e best = some (Best.mk e.1 e.2 cap q) := by
  simp only [bestStep]
  rcases e.2.matchf src st prev with _ | cap
  · exact .inl rfl
  · rcases best with _ | b0
    · exact .inr ⟨cap, _, rfl⟩
    · by_cases hq : ruleQuality e cap st prev > b0.quality
      · simp only [if_pos hq]
        exact .inr ⟨cap, _, rfl⟩
      · simp only [if_neg hq]
        exact .inl trivial

theorem scanRules_origin (src : List Char) (st : MDState) (prev : List Char) :
    ∀ (l : List (String × PRule)) (best : Option Best) (b : Best),
      scanRules src st prev l best = some b →
      best = some b ∨ ∃ e ∈ l, e.1 = b.name ∧ e.2 = b.rule := by
  intro l
  induction l with
  | nil =>
    intro best b h
    simp only [scanRules] at h
    exact .inl h
  | cons e rest ih =>
    intro best b h
    simp only [scanRules] at h
    have hcand : bestStep src st prev e best = some b →
        best = some b ∨ ∃ x ∈ e :: rest, x.1 = b.name ∧ x.2 = b.rule := by
      intro hvb
      rcases bestStep_cases src st prev e best with h' | ⟨cap', q', hv⟩
    
      · exact .inl (h' ▸ hvb)
      · rw [hvb] at hv
        rcases Option.some.inj hv with rfl
        exact .inr ⟨e, by simp, rfl, rfl⟩
    rcases rest with _ | ⟨e2, rest'⟩
    · exact hcand h
    · cases hcond : ((bestStep src st prev e best).isNone ||
          (decide (e2.2.order = e.2.order) && e2.2.quality?.isSome)) <;>
        simp only [hcond] at h
      · exact hcand h
      · rcases ih _ _ h with h' | ⟨e', he', h1, h2⟩
        · exact hcand h'
        · exact .inr ⟨e', by simp [he'], h1, h2⟩

theorem typedOk_withTyp (nd : MDNode) (t : String) :
    typedOk (nd.withTyp t) = !(t == "") := by
  cases nd with
  | mk ty s fs => simp [typedOk, MDNode.withTyp, MDNode.typ]

theorem nestedParse_typed (rules : List (String × PRule))
    (hr : ∀ e ∈ rules, e.1 ≠ "" ∧ ∀ cap cb st r st',
        e.2.parsef cap cb st = (.ok r, st') → ∃ nd, r = .one nd ∧
          (nd.typ = none ∨ ∃ t, nd.typ = some t ∧ t ≠ "")) :
    ∀ fuel src st ns n st2,
      nestedParse rules fuel src st = (.ok (ns, n), st2) →
      ns.all typedOk = true := by
  intro fuel
  induction fuel with
  | zero =>
    intro src st ns n st2 h
    simp only [nestedParse, Prod.mk.injEq] at h
    exact absurd h.1 (by simp)
  | succ fuel ih =>
    intro src st ns n st2 h
    cases src with
    | nil =>
      simp only [nestedParse, Prod.mk.injEq, Except.ok.injEq] at h
      rcases h with ⟨⟨hns, -⟩, -⟩
      simp [← hns]
    | cons c cs =>
      simp only [nestedParse] at h
      split at h
      next => exact absurd h (by simp)
      next b heq =>
        split at h
        next => exact absurd h (by simp)
        next =>
          split at h
          next e st1 hp => exact absurd h (by simp)
          next out st1 hp =>
            split at h
            next e st3 hn => exact absurd h (by simp)
            next ns2 n2 st3 hn =>
              have hall2 := ih _ _ _ _ _ hn
              rcases scanRules_origin _ _ _ _ _ _ heq with hfalse | ⟨e, he, hname, hrule⟩
              · exact absurd hfalse (by simp)
              · obtain ⟨hnm, hres⟩ := hr e he
                rw [← hrule] at hp
                rcases hres _ _ _ _ _ hp with ⟨nd, rfl, hnd⟩
                simp only [Prod.mk.injEq, Except.ok.injEq] at h
                obtain ⟨⟨hns, -⟩, -⟩ := h
                subst hns
                simp only [List.all_append, hall2, Bool.and_true]
                rcases hnd with hnone | ⟨t, ht, htne⟩
                · cases nd with
                  | mk ty s fs =>
                    simp only [MDNode.typ] at hnone
                    subst hnone
                    simp [typedOk, MDNode.typ, MDNode.withTyp, ← hname, hnm]
                · cases nd with
                  | mk ty s fs =>
                    simp only [MDNode.typ] at ht
                    subst ht
                    simp [typedOk, MDNode.typ, htne]

/-- C4: `sanitizeUrl` returns `none` for `none`; `none` when
percent-decoding fails; `none` when the decoded argument, stripped to
`[A-Za-z0-9/:]` and lowercased, begins with `javascript:`, `vbscript:`
or `data:`; and in every other case the original string unmodified. -/
theorem sanitizeUrl_charact :
    sanitizeUrl none = none ∧
    (∀ u, decodeURIComponentM (u.length + 1) u = none → sanitizeUrl (some u) = none) ∧
    (∀ u dec, decodeURIComponentM (u.length + 1) u = some dec →
      ("javascript:".data.isPrefixOf ((dec.filter urlAllowed).map asciiLower) ||
       "vbscript:".data.isPrefixOf ((dec.filter urlAllowed).map asciiLower) ||
       "data:".data.isPrefixOf ((dec.filter urlAllowed).map asciiLower)) = true →
      sanitizeUrl (some u) = none) ∧
    (∀ u dec, decodeURIComponentM (u.length + 1) u = some dec →
      ("javascript:".data.isPrefixOf ((dec.filter urlAllowed).map asciiLower) ||
       "vbscript:".data.isPrefixOf ((dec.filter urlAllowed).map asciiLower) ||
       "data:".data.isPrefixOf ((dec.filter urlAllowed).map asciiLower)) = false →
      sanitizeUrl (some u) = some u) := by
  refine ⟨rfl, ?_, ?_, ?_⟩
  · intro u hdec
    simp only [sanitizeUrl, hdec]
  · intro u dec hdec hpre
    simp only [sanitizeUrl, hdec]
    simp only [Bool.or_eq_true] at hpre
    rcases hpre with (h1 | h1) | h1 <;> simp [h1]
  · intro u dec hdec hpre
    simp only [sanitizeUrl, hdec]
    simp only [Bool.or_eq_false_iff] at hpre
    obtain ⟨⟨h1, h2⟩, h3⟩ := hpre
    simp [h1, h2, h3]

theorem qlt_s_e (a b : Nat) : ((b : ℚ) + 1 / 10 > (a : ℚ) + 2 / 10) ↔ b > a := by
  constructor
  · intro h
    by_contra hc
    push_neg at hc
    have : (b : ℚ) ≤ (a : ℚ) := by exact_mod_cast hc
    linarith
  · intro h
    have : (a : ℚ) + 1 ≤ (b : ℚ) := by exact_mod_cast h
    linarith

theorem qlt_u_e (a c : Nat) : ((c : ℚ) > (a : ℚ) + 2 / 10) ↔ c > a := by
  constructor
  · intro h
    by_contra hc
    push_neg at hc
    have : (c : ℚ) ≤ (a : ℚ) := by exact_mod_cast hc
    linarith
  · intro h
    have : (a : ℚ) + 1 ≤ (c : ℚ) := by exact_mod_cast h
    linarith

theorem qlt_u_s (b c : Nat) : ((c : ℚ) > (b : ℚ) + 1 / 10) ↔ c > b := by
  constructor
  · intro h
    by_contra hc
    push_neg at hc
    have : (c : ℚ) ≤ (b : ℚ) := by exact_mod_cast hc
    linarith
  · intro h
    have : (b : ℚ) + 1 ≤ (c : ℚ) := by exact_mod_cast h
    linarith

/-- C1: among the default rules `em`, `strong` and `u` (which share one
order value and all have quality functions), the dispatcher's scan over
them selects exactly the candidate `emStrongUPick` describes: the rule
whose full capture is longer wins, and on equal lengths `em` beats
`strong` beats `u`, because the qualities are `capture[0].length`
plus `0.2`, `0.1` and `0.0` and a later candidate replaces the current
best only when its quality is strictly greater. -/
theorem emStrongU_selection (src prev : List Char) (st : MDState)
    (hin : st.inline = true) (me ms mu : Option JsMatch)
    (he : rxExec false EM_R 2 src = me)
    (hs : rxExec false STRONG_R 1 src = ms)
    (hu : rxExec false U_R 1 src = mu) :
    (scanRules src st prev [emRule, strongRule, uRule] none).map Best.name =
      emStrongUPick (me.map (fun m => m.matched.length))
        (ms.map (fun m => m.matched.length)) (mu.map (fun m => m.matched.length)) := by
  have h3 : scanRules src st prev [emRule, strongRule, uRule] none =
      bestStep src st prev uRule (bestStep src st prev strongRule
        (bestStep src st prev emRule none)) := by
    simp only [scanRules]
    norm_num [strongRule, uRule]
  rw [h3]
  have hme : bestStep src st prev emRule none =
      me.map (fun m => Best.mk "em" emRule.2 m (emQuality m st prev)) := by
    simp only [bestStep, emRule_fields.2.2.1, inlineRegex_apply, hin, if_true, he,
      ruleQuality, emRule_fields.2.2.2.1]
    rcases me with _ | m
    · rfl
    · rfl
  rw [hme]
  rcases me with _ | a <;> rcases ms with _ | b <;> rcases mu with _ | c
  case none.none.none =>
    simp only [Option.map_none', bestStep, strongRule_fields.2.2.1, uRule_fields.2.2.1,
      inlineRegex_apply, hin, if_true, hs, hu]
    rfl
  case none.none.some =>
    simp only [Option.map_none', Option.map_some', bestStep, strongRule_fields.2.2.1,
      uRule_fields.2.2.1, inlineRegex_apply, hin, if_true, hs, hu]
    rfl
  case none.some.none =>
    simp only [Option.map_none', Option.map_some', bestStep, strongRule_fields.2.2.1,
      uRule_fields.2.2.1, inlineRegex_apply, hin, if_true, hs, hu]
    rfl
  case none.some.some =>
    simp only [Option.map_none', Option.map_some', bestStep, strongRule_fields.2.2.1,
      uRule_fields.2.2.1, inlineRegex_apply, hin, if_true, hs, hu, ruleQuality,
      strongRule_fields.2.2.2.1, uRule_fields.2.2.2.1]
    simp only [uQuality, strongQuality, emStrongUPick]
    by_cases hcb : c.matched.length > b.matched.length
    · rw [if_pos ((qlt_u_s b.matched.length c.matched.length).mpr hcb), if_pos hcb]
      rfl
    · rw [if_neg (fun hc => hcb ((qlt_u_s b.matched.length c.matched.length).mp hc)),
        if_neg hcb]
      rfl
  case some.none.none =>
    simp only [Option.map_none', Option.map_some', bestStep, strongRule_fields.2.2.1,
      uRule_fields.2.2.1, inlineRegex_apply, hin, if_true, hs, hu]
    rfl
  case some.none.some =>
    simp only [Option.map_none', Option.map_some', bestStep, strongRule_fields.2.2.1,
      uRule_fields.2.2.1, inlineRegex_apply, hin, if_true, hs, hu, ruleQuality,
      strongRule_fields.2.2.2.1, uRule_fields.2.2.2.1]
    simp only [uQuality, emQuality, emStrongUPick]
    by_cases hca : c.matched.length > a.matched.length
    · rw [if_pos ((qlt_u_e a.matched.length c.matched.length).mpr hca), if_pos hca]
      rfl
    · rw [if_neg (fun hc => hca ((qlt_u_e a.matched.length c.matched.length).mp hc)),
        if_neg hca]
      rfl
  case some.some.none =>
    simp only [Option.map_none', Option.map_some', bestStep, strongRule_fields.2.2.1,
      uRule_fields.2.2.1, inlineRegex_apply, hin, if_true, hs, hu, ruleQuality,
      strongRule_fields.2.2.2.1, uRule_fields.2.2.2.1]
    simp only [strongQuality, emQuality, emStrongUPick]
    by_cases hba : b.matched.length > a.matched.length
    · rw [if_pos ((qlt_s_e a.matched.length b.matched.length).mpr hba), if_pos hba]
      rfl
    · rw [if_neg (fun hc => hba ((qlt_s_e a.matched.length b.matched.length).mp hc)),
        if_neg hba]
      rfl
  case some.some.some =>
    have hb2 : bestStep src st prev strongRule
        (some (Best.mk "em" emRule.2 a (emQuality a st prev))) =
        some (if b.matched.length > a.matched.length then
          Best.mk "strong" strongRule.2 b (strongQuality b st prev)
        else Best.mk "em" emRule.2 a (emQuality a st prev)) := by
      simp only [bestStep, strongRule_fields.1, strongRule_fields.2.2.1,
        inlineRegex_apply, hin, if_true, hs, ruleQuality, strongRule_fields.2.2.2.1]
      simp only [strongQuality, emQuality]
      by_cases hba : b.matched.length > a.matched.length
      · rw [if_pos ((qlt_s_e a.matched.length b.matched.length).mpr hba), if_pos hba]
      · rw [if_neg (fun hc => hba ((qlt_s_e a.matched.length b.matched.length).mp hc)),
          if_neg hba]
    simp only [Option.map_some']
    rw [hb2]
    by_cases hba : b.matched.length > a.matched.length
    · rw [if_pos hba]
      simp only [bestStep, uRule_fields.2.2.1, inlineRegex_apply, hin, if_true, hu,
        ruleQuality, uRule_fields.2.2.2.1]
      simp only [uQuality, strongQuality, emStrongUPick]
      rw [if_pos hba]
      by_cases hcb : c.matched.length > b.matched.length
      · rw [if_pos ((qlt_u_s b.matched.length c.matched.length).mpr hcb), if_pos hcb]
        rfl
      · rw [if_neg (fun hc => hcb ((qlt_u_s b.matched.length c.matched.length).mp hc)),
          if_neg hcb]
        rfl
    · rw [if_neg hba]
      simp only [bestStep, uRule_fields.2.2.1, inlineRegex_apply, hin, if_true, hu,
        ruleQuality, uRule_fields.2.2.2.1]
      simp only [uQuality, emQuality, emStrongUPick]
      rw [if_neg hba]
      by_cases hca : c.matched.length > a.matched.length
      · rw [if_pos ((qlt_u_e a.matched.length c.matched.length).mpr hca), if_pos hca]
        rfl
      · rw [if_neg (fun hc => hca ((qlt_u_e a.matched.length c.matched.length).mp hc)),
          if_neg hca]
        rfl

theorem parseInline_extra (cb : ParseCB) (hcb : extraPres cb)
    (content : List Char) (st : MDState) :
    ((parseInline cb content st).2).extra = st.extra := by
  simp only [parseInline]
  have := hcb content { st with inline := true }
  simp at this
  simp [this]

theorem parseRef_extra (cap : JsMatch) (st : MDState) (nd : MDNode) :
    ((parseRef cap st nd).2).extra = st.extra := by
  simp only [parseRef]

theorem headingParse_extra (cap : JsMatch) (cb : ParseCB) (hcb : extraPres cb)
    (st : MDState) : ((headingParse cap cb st).2).extra = st.extra := by
  simp only [headingParse]
  exact parseInline_extra cb hcb _ st

theorem lheadingParse_extra (cap : JsMatch) (cb : ParseCB) (hcb : extraPres cb)
    (st : MDState) : ((lheadingParse cap cb st).2).extra = st.extra := by
  simp only [lheadingParse]
  exact parseInline_extra cb hcb _ st

theorem parseCaptureInline_extra (cap : JsMatch) (cb : ParseCB) (hcb : extraPres cb)
    (st : MDState) : ((parseCaptureInline cap cb st).2).extra = st.extra := by
  simp only [parseCaptureInline]
  exact parseInline_extra cb hcb _ st

theorem blockQuoteParse_extra (cap : JsMatch) (cb : ParseCB) (hcb : extraPres cb)
    (st : MDState) : ((blockQuoteParse cap cb st).2).extra = st.extra := by
  simp only [blockQuoteParse]
  exact hcb _ st

theorem linkParse_extra (cap : JsMatch) (cb : ParseCB) (hcb : extraPres cb)
    (st : MDState) : ((linkParse cap cb st).2).extra = st.extra := by
  simp only [linkParse]
  exact hcb _ st

theorem emParse_extra (cap : JsMatch) (cb : ParseCB) (hcb : extraPres cb)
    (st : MDState) : ((emParse cap cb st).2).extra = st.extra := by
  simp only [emParse]
  exact hcb _ st

theorem reflinkParse_extra (cap : JsMatch) (cb : ParseCB) (hcb : extraPres cb)
    (st : MDState) : ((reflinkParse cap cb st).2).extra = st.extra := by
  simp only [reflinkParse]
  split
  · exact hcb _ st
  next ns heq =>
    have h1 : (((cb (cap.g 1) st).2)).extra = st.extra := hcb _ st
    simp only [parseRef_extra]
    exact h1

theorem refimageParse_extra (cap : JsMatch) (cb : ParseCB) (st : MDState) :
    ((refimageParse cap cb st).2).extra = st.extra := by
  simp only [refimageParse, parseRef_extra]

theorem snd_extra_eq {A : Type} {x y : A × MDState} (h : x = y) :
    x.2.extra = y.2.extra := by rw [h]

theorem listItemsAux_extra (cb : ParseCB) (hcb : extraPres cb) (total : Nat) :
    ∀ items i lastPara st,
      ((listItemsAux cb total items i lastPara st).2).extra = st.extra := by
  intro items
  induction items with
  | nil => intro i lastPara st; simp [listItemsAux]
  | cons item rest ih =>
    intro i lastPara st
    simp only [listItemsAux]
    split
    next e heq =>
      simp [hcb]
    next ns x heq =>
      split
      next e st3 heq3 =>
        have h4 := snd_extra_eq heq3
        rw [ih] at h4
        simp only at h4 ⊢
        rw [hcb] at h4
        simp only at h4
        exact h4.symm
      next tl st3 heq3 =>
        have h4 := snd_extra_eq heq3
        rw [ih] at h4
        simp only at h4 ⊢
        rw [hcb] at h4
        simp only at h4
        exact h4.symm

theorem listParse_extra (cap : JsMatch) (cb : ParseCB) (hcb : extraPres cb)
    (st : MDState) : ((listParse cap cb st).2).extra = st.extra := by
  simp only [listParse]
  split
  next e st1 heq =>
    have h := snd_extra_eq heq
    rw [listItemsAux_extra cb hcb] at h
    exact h.symm
  next itemContent st1 heq =>
    have h := snd_extra_eq heq
    rw [listItemsAux_extra cb hcb] at h
    exact h.symm

theorem parseTableRow_extra (source : List Char) (cb : ParseCB) (hcb : extraPres cb)
    (st : MDState) (trim : Bool) :
    ((parseTableRow source cb st trim).2).extra = st.extra := by
  simp only [parseTableRow]
  split
  next e heq =>
    simp [hcb]
  next tableRow x heq =>
    simp [hcb]

theorem tableCellsAux_extra (cb : ParseCB) (hcb : extraPres cb) (trim : Bool) :
    ∀ rows st, ((tableCellsAux cb trim rows st).2).extra = st.extra := by
  intro rows
  induction rows with
  | nil => intro st; simp [tableCellsAux]
  | cons rowText rest ih =>
    intro st
    simp only [tableCellsAux]
    split
    next e st1 heq =>
      have h := snd_extra_eq heq
      rw [parseTableRow_extra _ cb hcb] at h
      exact h.symm
    next row st1 heq =>
      have h := snd_extra_eq heq
      rw [parseTableRow_extra _ cb hcb] at h
      split
      next e st2 heq2 =>
        have h2 := snd_extra_eq heq2
        rw [ih] at h2
        simp only at h2
        exact (h.trans h2).symm
      next rows2 st2 heq2 =>
        have h2 := snd_extra_eq heq2
        rw [ih] at h2
        simp only at h2
        exact (h.trans h2).symm

theorem parseTable_extra (trim : Bool) (cap : JsMatch) (cb : ParseCB)
    (hcb : extraPres cb) (st : MDState) :
    ((parseTable trim cap cb st).2).extra = st.extra := by
  simp only [parseTable]
  split
  next e st1 heq =>
    have h := snd_extra_eq heq
    rw [parseTableRow_extra _ cb hcb] at h
    simp only at h
    exact h.symm
  next header st1 heq =>
    have h := snd_extra_eq heq
    rw [parseTableRow_extra _ cb hcb] at h
    simp only at h
    split
    next e st2 heq2 =>
      have h2 := snd_extra_eq heq2
      rw [parseTableCells, tableCellsAux_extra cb hcb] at h2
      simp only at h2
      exact (h.trans h2).symm
    next cells st2 heq2 =>
      have h2 := snd_extra_eq heq2
      rw [parseTableCells, tableCellsAux_extra cb hcb] at h2
      simp only at h2 ⊢
      exact (h.trans h2).symm

theorem nestedParse_extra (rules : List (String × PRule))
    (Hr : ∀ e ∈ rules, ∀ cap (cb : ParseCB), extraPres cb → ∀ st,
      ((e.2.parsef cap cb st).2).extra = st.extra) :
    ∀ fuel, extraPres (nestedParse rules fuel) := by
  intro fuel
  induction fuel with
  | zero => intro s st; simp [nestedParse]
  | succ fuel ih =>
    intro s st
    cases s with
    | nil => simp [nestedParse]
    | cons c cs =>
      simp only [nestedParse]
      split
      · simp
      next b heq =>
        rcases scanRules_origin _ _ _ _ _ _ heq with hF | ⟨e', he', hname, hrule⟩
        · exact absurd hF (by simp)
        · split
          next => simp
          next =>
            split
            next e st1 hp =>
              have hpr := Hr e' he' b.capture (nestedParse rules fuel) ih st
              rw [hrule, hp] at hpr
              simpa using hpr
            next out st1 hp =>
              have hpr := Hr e' he' b.capture (nestedParse rules fuel) ih st
              rw [hrule, hp] at hpr
              simp only at hpr
              split
              next e2 st3 hn =>
                have h2 := snd_extra_eq hn
                rw [ih] at h2
                simp only at h2 ⊢
                rw [← h2, hpr]
              next ns2 n2 st3 hn =>
                have h2 := snd_extra_eq hn
                rw [ih] at h2
                simp only at h2 ⊢
                rw [← h2, hpr]

theorem defaultRules_pres : ∀ e ∈ defaultRuleList, ∀ cap (cb : ParseCB),
    extraPres cb → ∀ st, ((e.2.parsef cap cb st).2).extra = st.extra := by
  intro e he cap cb hcb st
  simp only [defaultRuleList, rulesBeforeEm, rulesFromDel, List.mem_append,
    List.mem_cons, List.not_mem_nil, or_false] at he
  rcases he with (rfl | rfl | rfl | rfl | rfl | rfl | rfl | rfl | rfl | rfl | rfl |
    rfl | rfl | rfl | rfl | rfl | rfl | rfl | rfl | rfl | rfl) |
    (rfl | rfl | rfl | rfl | rfl | rfl | rfl)
  all_goals first
  | exact headingParse_extra cap cb hcb st
  | exact parseTable_extra _ cap cb hcb st
  | exact lheadingParse_extra cap cb hcb st
  | exact parseCaptureInline_extra cap cb hcb st
  | exact blockQuoteParse_extra cap cb hcb st
  | exact listParse_extra cap cb hcb st
  | exact linkParse_extra cap cb hcb st
  | exact emParse_extra cap cb hcb st
  | exact reflinkParse_extra cap cb hcb st
  | exact refimageParse_extra cap cb st
  | simp [ignoreCapture]
  | simp [codeBlockParse]
  | simp [fenceParse]
  | simp [defParse]
  | simp [escapeParse]
  | simp [tableSeparatorParse]
  | simp [autolinkParse]
  | simp [mailtoParse]
  | simp [urlParse]
  | simp [imageParse]
  | simp [inlineCodeParse]
  | simp [textParse]

/-- C9: every parse with the default rule set passes the
client-supplied state fields (modelled by `extra`, the fields outside
the recognized set) through untouched: the dispatcher and every default
rule preserve them. -/
theorem defaultRawParse_extra (fuel : Nat) (source : List Char) (st? : Option MDState) :
    ((defaultRawParse fuel source st?).2).extra = (st?.getD {}).extra := by
  simp only [defaultRawParse, outerParse]
  split
  next nodes n st' heq =>
    have h := snd_extra_eq heq
    rw [nestedParse_extra defaultRuleList defaultRules_pres] at h
    simp only at h ⊢
    exact h.symm
  next r hne =>
    rw [nestedParse_extra defaultRuleList defaultRules_pres]

theorem reL_san (s : List Char) (fuel : Nat) (pos : Nat) (caps : Caps) :
    reL s false fuel SANITIZE_TEXT_R pos caps =
      match s.get? pos with
      | some c => if sanHit c then [(pos + 1, caps)] else []
      | none => [] := by
  rw [SANITIZE_TEXT_R, reL]
  rcases s.get? pos with _ | c
  · rfl
  · simp [citemMatch, sanHit, or_assoc]

theorem matchAt_san (s : List Char) (pos : Nat) :
    rxMatchAt false SANITIZE_TEXT_R 0 s pos =
      match hc : s.get? pos with
      | some c => if sanHit c then some (JsMatch.mk pos [c] []) else none
      | none => none := by
  rw [rxMatchAt, reL_san]
  rcases hc : s.get? pos with _ | c
  · rfl
  · by_cases hh : sanHit c
    · simp only [hh, if_true, List.head?]
      have hlt : pos < s.length := (List.get?_eq_some.mp hc).1
      have hdrop : s.drop pos = c :: s.drop (pos + 1) := by
        rw [List.drop_eq_getElem_cons hlt]
        congr 1
        have hg := List.get?_eq_getElem? s pos
        rw [hc] at hg
        exact (List.getElem?_eq_some.mp hg.symm).2
      simp [hdrop, extractGroups]
    · simp [hh]

theorem search_san (s : List Char) :
    ∀ k pos, pos + k = s.length → ∀ cnt, k + 1 ≤ cnt →
      (rxSearchFrom false SANITIZE_TEXT_R 0 s cnt pos = none ∧
        ∀ j c, s.get? (pos + j) = some c → sanHit c = false) ∨
      (∃ p c, pos ≤ p ∧ s.get? p = some c ∧ sanHit c = true ∧
        (∀ j c', pos + j < p → s.get? (pos + j) = some c' → sanHit c' = false) ∧
        rxSearchFrom false SANITIZE_TEXT_R 0 s cnt pos = some (JsMatch.mk p [c] [])) := by
  intro k
  induction k with
  | zero =>
    intro pos hpos cnt hcnt
    obtain ⟨cnt, rfl⟩ : ∃ m, cnt = m + 1 := ⟨cnt - 1, by omega⟩
    left
    constructor
    · rw [rxSearchFrom, matchAt_san]
      have hget : s.get? pos = none := by
        rw [List.get?_eq_none]
        omega
      rw [hget]
      rw [if_neg (by omega : ¬ pos < s.length)]
    · intro j c hj
      have := (List.get?_eq_some.mp hj).1
      omega
  | succ k ih =>
    intro pos hpos cnt hcnt
    obtain ⟨cnt, rfl⟩ : ∃ m, cnt = m + 1 := ⟨cnt - 1, by omega⟩
    have hlt : pos < s.length := by omega
    obtain ⟨c0, hc0⟩ : ∃ c, s.get? pos = some c := by
      refine ⟨s.get ⟨pos, hlt⟩, ?_⟩
      exact List.get?_eq_get hlt
    cases hh : sanHit c0
    case true =>
      right
      refine ⟨pos, c0, le_refl pos, hc0, hh, ?_, ?_⟩
      · intro j c' hjp hget
        omega
      · rw [rxSearchFrom, matchAt_san, hc0]
        simp only [hh, if_true]
    case false =>
      have hstep : rxSearchFrom false SANITIZE_TEXT_R 0 s (cnt + 1) pos =
          rxSearchFrom false SANITIZE_TEXT_R 0 s cnt (pos + 1) := by
        rw [rxSearchFrom, matchAt_san, hc0]
        simp only [hh, Bool.false_eq_true, if_false]
        rw [if_pos hlt]
      rcases ih (pos + 1) (by omega) cnt (by omega) with
        ⟨hn, hall⟩ | ⟨p, c, hpe, hg, hh2, hbl, hs2⟩
      · left
        refine ⟨by rw [hstep]; exact hn, ?_⟩
        intro j c hj
        rcases j with _ | j'
        · rw [Nat.add_zero, hc0] at hj
          rcases Option.some.inj hj with rfl
          exact hh
        · have hj2 : s.get? (pos + 1 + j') = some c := by
            rw [show pos + 1 + j' = pos + (j' + 1) by omega]
            exact hj
          exact hall j' c hj2
      · right
        refine ⟨p, c, by omega, hg, hh2, ?_, by rw [hstep]; exact hs2⟩
        intro j c' hjp hget
        rcases j with _ | j'
        · rw [Nat.add_zero, hc0] at hget
          rcases Option.some.inj hget with rfl
          exact hh
        · refine hbl j' c' (by omega) ?_
          rw [show pos + 1 + j' = pos + (j' + 1) by omega]
          exact hget

theorem flatMap_san_id : ∀ (l : List Char), (∀ c ∈ l, sanHit c = false) →
    (l.flatMap fun c => if sanHit c then SANITIZE_TEXT_CODES c else [c]) = l := by
  intro l
  induction l with
  | nil => intro; rfl
  | cons c rest ih =>
    intro h
    have hc := h c (by simp)
    simp only [List.flatMap_cons, hc, Bool.false_eq_true, if_false]
    rw [ih (fun c' hm => h c' (by simp [hm]))]
    rfl

theorem replAux_san (s : List Char) :
    ∀ k pos, pos + k = s.length → ∀ steps, k + 1 ≤ steps →
      rxReplAux false SANITIZE_TEXT_R 0 s
        (fun m => SANITIZE_TEXT_CODES (m.matched.headD ' ')) steps pos =
      ((s.drop pos).flatMap fun c => if sanHit c then SANITIZE_TEXT_CODES c else [c]) := by
  intro k
  induction k using Nat.strong_induction_on with
  | _ k ihs =>
    intro pos hpos steps hsteps
    obtain ⟨q, rfl⟩ : ∃ m, steps = m + 1 := ⟨steps - 1, by omega⟩
    rw [rxReplAux]
    have hcnt : k + 1 ≤ s.length + 1 - pos := by omega
    rcases search_san s k pos hpos (s.length + 1 - pos) hcnt with
      ⟨hn, hall⟩ | ⟨p, c, hpe, hg, hh, hbl, hs2⟩
    · rw [hn]
      rw [flatMap_san_id]
      intro c hm
      obtain ⟨j, hj⟩ := List.get?_of_mem hm
      refine hall j c ?_
      rw [← List.get?_drop]
      exact hj
    · rw [hs2]
      have hplt : p < s.length := (List.get?_eq_some.mp hg).1
      have hcp : s[p] = c := by
        have hgg := List.get?_eq_getElem? s p
        rw [hg] at hgg
        exact (List.getElem?_eq_some.mp hgg.symm).2
      have hdropp : s.drop p = c :: s.drop (p + 1) := by
        rw [List.drop_eq_getElem_cons hplt]
        rw [hcp]
      have hsplit : s.drop pos = (s.drop pos).take (p - pos) ++ c :: s.drop (p + 1) := by
        conv_lhs => rw [← List.take_append_drop (p - pos) (s.drop pos)]
        congr 1
        rw [List.drop_drop]
        first
        | rw [show p - pos + pos = p by omega]
        | rw [show pos + (p - pos) = p by omega]
        exact hdropp
      have htake : ((s.drop pos).take (p - pos)).flatMap
          (fun c => if sanHit c then SANITIZE_TEXT_CODES c else [c]) =
          (s.drop pos).take (p - pos) := by
        apply flatMap_san_id
        intro c' hm
        obtain ⟨j, hj⟩ := List.get?_of_mem hm
        have hjlt : j < p - pos := by
          have := (List.get?_eq_some.mp hj).1
          have hlen := List.length_take (p - pos) (s.drop pos)
          omega
        refine hbl j c' (by omega) ?_
        rw [← List.get?_drop]
        rw [← List.get?_take hjlt]
        exact hj
      conv_rhs => rw [hsplit]
      rw [List.flatMap_append, List.flatMap_cons, htake]
      simp only [hh, if_true]
      have hrec := ihs (s.length - (p + 1)) (by omega) (p + 1) (by omega) q (by omega)
      simp only [List.isEmpty_cons, Bool.false_eq_true, if_false, List.headD_cons,
        List.length_cons, List.length_nil, Nat.zero_add]
      rw [hrec]
      simp only [List.append_assoc]

/-- C5 (corrected): `sanitizeText` replaces every occurrence of each of
the five characters matched by `SANITIZE_TEXT_R` (`< > & " '`) with its
entity and leaves every other character — including `/` and the
backtick, despite their entries in the seven-entry code table —
unchanged. -/
theorem sanitizeText_charact (l : List Char) : sanitizeText l = sanitizeTextSpec l := by
  rw [sanitizeText, rxReplaceG, sanitizeTextSpec]
  have h := replAux_san l l.length 0 (by omega) (l.length + 1) (by omega)
  simpa using h


/-! ## Characterization of the block-termination test -/

theorem starNl_mem (s : List Char) :
    ∀ fuel pos caps r, r ∈ reL s false fuel (.rep 0 none false (.lit '\n')) pos caps →
      pos ≤ r.1 ∧ ∀ i, pos ≤ i → i < r.1 → s.get? i = some '\n' := by
  intro fuel
  induction fuel using Nat.strong_induction_on with
  | _ fuel ih =>
    rcases fuel with _ | f
    · intro pos caps r hr
      rw [reL] at hr
      simp at hr
    · intro pos caps r hr
      rw [reL] at hr
      rw [dif_neg (by simp : ¬ (0 : Nat) ≠ 0)] at hr
      rw [if_neg (by simp : ¬ (none : Option Nat) = some 0)] at hr
      rw [dif_neg (by simp : ¬ f + 1 = 0)] at hr
      simp only [Bool.false_eq_true, if_false] at hr
      rcases hg : s.get? pos with _ | c
      · rw [reL] at hr
        simp only [hg] at hr
        rw [repIter] at hr
        simp only [List.nil_append] at hr
        rcases List.mem_singleton.mp hr with rfl
        exact ⟨le_refl pos, fun i h1 h2 => absurd h2 (by omega)⟩
      · rw [reL] at hr
        simp only [hg] at hr
        by_cases hc : c = '\n'
        · rw [if_pos hc] at hr
          rw [repIter, repIter] at hr
          rw [dif_neg (by omega : ¬ (pos + 1 = pos ∨ f + 1 = 0))] at hr
          simp only [List.append_nil, Nat.add_sub_cancel, Option.map_none'] at hr
          rcases List.mem_append.mp hr with hr1 | hr2
          · have hih := ih f (by omega) (pos + 1) caps r hr1
            refine ⟨by omega, fun i h1 h2 => ?_⟩
            rcases Nat.eq_or_lt_of_le h1 with rfl | hgt
            · rw [hg, hc]
            · exact hih.2 i (by omega) h2
          · rcases List.mem_singleton.mp hr2 with rfl
            exact ⟨le_refl pos, fun i h1 h2 => absurd h2 (by omega)⟩
        · rw [if_neg hc] at hr
          rw [repIter] at hr
          simp only [List.nil_append] at hr
          rcases List.mem_singleton.mp hr with rfl
          exact ⟨le_refl pos, fun i h1 h2 => absurd h2 (by omega)⟩

theorem searchFrom_some_exists (ml : Bool) (rx : Rx) (ng : Nat) (s : List Char) :
    ∀ cnt pos m, rxSearchFrom ml rx ng s cnt pos = some m →
      ∃ p, rxMatchAt ml rx ng s p = some m := by
  intro cnt
  induction cnt with
  | zero => intro pos m h; rw [rxSearchFrom] at h; exact absurd h (by simp)
  | succ cnt ih =>
    intro pos m h
    rw [rxSearchFrom] at h
    rcases hm : rxMatchAt ml rx ng s pos with _ | m0
    · rw [hm] at h
      simp only at h
      split at h
      · exact ih _ _ h
      · exact absurd h (by simp)
    · rw [hm] at h
      simp only at h
      rcases Option.some.inj h with rfl
      exact ⟨pos, hm⟩

theorem searchFrom_finds (ml : Bool) (rx : Rx) (ng : Nat) (s : List Char) :
    ∀ cnt pos p, pos ≤ p → p < pos + cnt → p ≤ s.length →
      (rxMatchAt ml rx ng s p).isSome = true →
      (rxSearchFrom ml rx ng s cnt pos).isSome = true := by
  intro cnt
  induction cnt with
  | zero => intro pos p h1 h2; omega
  | succ cnt ih =>
    intro pos p h1 h2 h3 h4
    rw [rxSearchFrom]
    rcases hm : rxMatchAt ml rx ng s pos with _ | m0
    · simp only
      rcases Nat.eq_or_lt_of_le h1 with rfl | hgt
      · rw [hm] at h4
        exact absurd h4 (by simp)
      · rw [if_pos (by omega : pos < s.length)]
        exact ih (pos + 1) p (by omega) (by omega) h3 h4
    · simp

theorem rep2Nl_mem (s : List Char) (fuel : Nat) (pos : Nat) (caps : Caps)
    (r : Nat × Caps)
    (hr : r ∈ reL s false fuel (.rep 2 none false (.lit '\n')) pos caps) :
    pos + 2 ≤ r.1 ∧ ∀ i, pos ≤ i → i < r.1 → s.get? i = some '\n' := by
  rw [reL] at hr
  rw [dif_pos (by omega : (2 : Nat) ≠ 0)] at hr
  simp only [Option.map_none'] at hr
  rcases List.mem_flatMap.mp hr with ⟨r1, hr1, hrr⟩
  rw [reL] at hr1
  rcases hg : s.get? pos with _ | c
  · simp only [hg] at hr1
    exact absurd hr1 (by simp)
  · simp only [hg] at hr1
    by_cases hc : c = '\n'
    · rw [if_pos hc] at hr1
      rcases List.mem_singleton.mp hr1 with rfl
      rw [reL] at hrr
      rw [dif_pos (by omega : 2 - 1 ≠ 0)] at hrr
      simp only [Option.map_none'] at hrr
      rcases List.mem_flatMap.mp hrr with ⟨r2, hr2, hrr2⟩
      rw [reL] at hr2
      rcases hg2 : s.get? (pos + 1) with _ | c2
      · simp only [hg2] at hr2
        exact absurd hr2 (by simp)
      · simp only [hg2] at hr2
        by_cases hc2 : c2 = '\n'
        · rw [if_pos hc2] at hr2
          rcases List.mem_singleton.mp hr2 with rfl
          have hstar := starNl_mem s fuel (pos + 1 + 1) caps r
            (by simpa using hrr2)
          refine ⟨by omega, fun i h1 h2 => ?_⟩
          rcases Nat.lt_or_ge i (pos + 1) with hi | hi
          · have : i = pos := by omega
            subst this
            rw [hg, hc]
          · rcases Nat.lt_or_ge i (pos + 2) with hi2 | hi2
            · have : i = pos + 1 := by omega
              subst this
              rw [hg2, hc2]
            · exact hstar.2 i (by omega) h2
        · rw [if_neg hc2] at hr2
          exact absurd hr2 (by simp)
    · rw [if_neg hc] at hr1
      exact absurd hr1 (by simp)

theorem starNl_at_end (s : List Char) (caps : Caps) :
    reL s false rxFuel (.rep 0 none false (.lit '\n')) s.length caps =
      [(s.length, caps)] := by
  have hglen : s.get? s.length = none := by
    rw [List.get?_eq_none]
  rw [reL]
  rw [dif_neg (by omega : ¬ (0 : Nat) ≠ 0)]
  rw [if_neg (by simp : ¬ (none : Option Nat) = some 0)]
  rw [dif_neg (by simp [rxFuel] : ¬ rxFuel = 0)]
  simp only [Bool.false_eq_true, if_false]
  rw [reL]
  simp only [hglen]
  rw [repIter]
  rfl

theorem blockEnd_matchAt_last (s : List Char) (h2 : 2 ≤ s.length)
    (ha : s.get? (s.length - 2) = some '\n')
    (hb : s.get? (s.length - 1) = some '\n') :
    (rxMatchAt false BLOCK_END_R 0 s (s.length - 2)).isSome = true := by
  have hrep2 : reL s false rxFuel (.rep 2 none false (.lit '\n')) (s.length - 2) [] =
      [(s.length, [])] := by
    rw [reL]
    rw [dif_pos (by omega : (2 : Nat) ≠ 0)]
    rw [reL]
    simp only [ha, Option.map_none', if_true]
    simp only [List.flatMap_cons, List.flatMap_nil, List.append_nil]
    rw [reL]
    rw [dif_pos (by omega : 2 - 1 ≠ 0)]
    rw [show s.length - 2 + 1 = s.length - 1 by omega]
    rw [reL]
    simp only [hb, Option.map_none', if_true]
    simp only [List.flatMap_cons, List.flatMap_nil, List.append_nil]
    rw [show s.length - 1 + 1 = s.length by omega]
    have hs := starNl_at_end s ([] : Caps)
    simp only [show (2 : Nat) - 1 - 1 = 0 by omega] at *
    rw [hs]
  rw [rxMatchAt, BLOCK_END_R, reL]
  rw [hrep2]
  simp only [List.flatMap_cons, List.flatMap_nil, List.append_nil]
  rw [reL]
  simp only [List.get?_eq_none.mpr (le_refl s.length), decide_True, Bool.false_and,
    Bool.or_false, if_true]
  simp

theorem blockEnd_test (s : List Char) :
    rxTest false BLOCK_END_R s = true ↔
      2 ≤ s.length ∧ s.get? (s.length - 2) = some '\n' ∧
        s.get? (s.length - 1) = some '\n' := by
  constructor
  · intro h
    rw [rxTest, rxExec] at h
    rcases hs : rxSearchFrom false BLOCK_END_R 0 s (s.length + 1) 0 with _ | m
    · rw [hs] at h
      exact absurd h (by simp)
    · obtain ⟨p, hp⟩ := searchFrom_some_exists false BLOCK_END_R 0 s _ _ _ hs
      rw [rxMatchAt] at hp
      rcases hh : (reL s false rxFuel BLOCK_END_R p []).head? with _ | r0
      · rw [hh] at hp
        exact absurd hp (by simp)
      · have hmem : r0 ∈ reL s false rxFuel BLOCK_END_R p [] :=
          List.mem_of_mem_head? hh
        rw [BLOCK_END_R, reL] at hmem
        rcases List.mem_flatMap.mp hmem with ⟨r1, hr1, hr0⟩
        rw [reL] at hr0
        have hlen : r1.1 = s.length := by
          by_cases hq : r1.1 = s.length
          · exact hq
          · rw [if_neg (by simp [hq])] at hr0
            exact absurd hr0 (by simp)
        have hd := rep2Nl_mem s rxFuel p [] r1 hr1
        rw [hlen] at hd
        refine ⟨by omega, ?_, ?_⟩
        · exact hd.2 (s.length - 2) (by omega) (by omega)
        · exact hd.2 (s.length - 1) (by omega) (by omega)
  · rintro ⟨h2, ha, hb⟩
    rw [rxTest, rxExec]
    exact searchFrom_finds false BLOCK_END_R 0 s (s.length + 1) 0 (s.length - 2)
      (by omega) (by omega) (by omega) (blockEnd_matchAt_last s h2 ha hb)


/-! ## Staged engine evaluations

Concrete regex-engine runs used by the concrete-input theorems below,
each evaluated once here (with the engine definitions locally
registered for `simp`) so the parse-pipeline proofs can use the results
as plain rewrite rules.
-/

section EngineEval
set_option maxHeartbeats 16000000
set_option maxRecDepth 2000
attribute [local simp] citemMatch capsGet atWordBoundary reL repIter rxFuel
  extractGroups rxMatchAt rxSearchFrom rxExec rxTest rxReplAux rxReplaceG
  rxReplace1 rxMatchAllAux rxMatchAll seqL altL rStr starG starLzy plusG plusL
  ropt nNl rdot spc nspc wrd sps blockEndNl escPair HEADING_R NPTABLE_REGEX
  LHEADING_R HR_R CODE_BLOCK_R FENCE_R BLOCK_QUOTE_R bulletRx
  LIST_ITEM_PREFIX_R LIST_ITEM_R BLOCK_END_R INLINE_CODE_ESCAPE_BACKTICKS_R
  LIST_ITEM_END_R LIST_R LIST_LOOKBEHIND_R TABLE_ROW_SEPARATOR_TRIM
  TABLE_CELL_END_TRIM TABLE_RIGHT_ALIGN TABLE_CENTER_ALIGN TABLE_LEFT_ALIGN
  TABLE_REGEX NEWLINE_R PARAGRAPH_R ESCAPE_R TABLE_SEPARATOR_R AUTOLINK_R
  MAILTO_R AUTOLINK_MAILTO_CHECK_R URL_R LINK_INSIDE_R LINK_HREF_TITLE_R
  LINK_R IMAGE_R REFLINK_R REFIMAGE_R DEF_R EM_R STRONG_R U_R DEL_R
  INLINE_CODE_R BR_R TEXT_R SANITIZE_TEXT_R UNESCAPE_URL_R CODE_BLOCK_STRIP_R
  TRAILING_NL_R BLOCK_QUOTE_STRIP_R spaceRegex WS_RUN_R CLAIM_IMPLICIT_R
  sanitizeText unescapeUrl canonRef

/-- Staged engine evaluation (`ev_nl_heading`). -/
theorem ev_nl_heading :
    rxExec false HEADING_R 2 (['\n', '\n']) = none := by simp

/-- Staged engine evaluation (`ev_nl_nptable`). -/
theorem ev_nl_nptable :
    rxExec false NPTABLE_REGEX 3 (['\n', '\n']) = none := by simp

/-- Staged engine evaluation (`ev_nl_lheading`). -/
theorem ev_nl_lheading :
    rxExec false LHEADING_R 2 (['\n', '\n']) = none := by simp

/-- Staged engine evaluation (`ev_nl_hr`). -/
theorem ev_nl_hr :
    rxExec false HR_R 1 (['\n', '\n']) = none := by simp

/-- Staged engine evaluation (`ev_nl_codeBlock`). -/
theorem ev_nl_codeBlock :
    rxExec false CODE_BLOCK_R 0 (['\n', '\n']) = none := by simp

/-- Staged engine evaluation (`ev_nl_fence`). -/
theorem ev_nl_fence :
    rxExec false FENCE_R 3 (['\n', '\n']) = none := by simp

/-- Staged engine evaluation (`ev_nl_blockQuote`). -/
theorem ev_nl_blockQuote :
    rxExec false BLOCK_QUOTE_R 2 (['\n', '\n']) = none := by simp

/-- Staged engine evaluation (`ev_nl_list`). -/
theorem ev_nl_list :
    rxExec false LIST_R 2 (['\n', '\n']) = none := by simp

/-- Staged engine evaluation (`ev_nl_def`). -/
theorem ev_nl_def :
    rxExec false DEF_R 3 (['\n', '\n']) = none := by simp

/-- Staged engine evaluation (`ev_nl_table`). -/
theorem ev_nl_table :
    rxExec false TABLE_REGEX 3 (['\n', '\n']) = none := by simp

/-- Staged engine evaluation (`ev_lookbehind_nil`). -/
theorem ev_lookbehind_nil :
    rxExec false LIST_LOOKBEHIND_R 1 ([] : List Char) = some (JsMatch.mk 0 [] [some []]) := by simp

/-- Staged engine evaluation (`ev_nl_newline`). -/
theorem ev_nl_newline :
    rxExec false NEWLINE_R 0 (['\n', '\n']) = some (JsMatch.mk 0 (['\n', '\n']) []) := by simp

/-- Staged engine evaluation (`ev_h_heading`). -/
theorem ev_h_heading :
    rxExec false HEADING_R 2 (['#', ' ', 'H', 'e', 'l', 'l', 'o', '\n', '\n', '\n', '\n']) =
      some (JsMatch.mk 0 (['#', ' ', 'H', 'e', 'l', 'l', 'o', '\n', '\n', '\n', '\n']) [some ['#'], some [' ', 'H', 'e', 'l', 'l', 'o']]) := by simp

/-- Staged engine evaluation (`ev_hello_escape`). -/
theorem ev_hello_escape :
    rxExec false ESCAPE_R 1 (['H', 'e', 'l', 'l', 'o']) = none := by simp

/-- Staged engine evaluation (`ev_hello_autolink`). -/
theorem ev_hello_autolink :
    rxExec false AUTOLINK_R 1 (['H', 'e', 'l', 'l', 'o']) = none := by simp

/-- Staged engine evaluation (`ev_hello_mailto`). -/
theorem ev_hello_mailto :
    rxExec false MAILTO_R 1 (['H', 'e', 'l', 'l', 'o']) = none := by simp

/-- Staged engine evaluation (`ev_hello_url`). -/
theorem ev_hello_url :
    rxExec false URL_R 1 (['H', 'e', 'l', 'l', 'o']) = none := by simp

/-- Staged engine evaluation (`ev_hello_link`). -/
theorem ev_hello_link :
    rxExec false LINK_R 3 (['H', 'e', 'l', 'l', 'o']) = none := by simp

/-- Staged engine evaluation (`ev_hello_image`). -/
theorem ev_hello_image :
    rxExec false IMAGE_R 3 (['H', 'e', 'l', 'l', 'o']) = none := by simp

/-- Staged engine evaluation (`ev_hello_reflink`). -/
theorem ev_hello_reflink :
    rxExec false REFLINK_R 2 (['H', 'e', 'l', 'l', 'o']) = none := by simp

/-- Staged engine evaluation (`ev_hello_refimage`). -/
theorem ev_hello_refimage :
    rxExec false REFIMAGE_R 2 (['H', 'e', 'l', 'l', 'o']) = none := by simp

/-- Staged engine evaluation (`ev_hello_em`). -/
theorem ev_hello_em :
    rxExec false EM_R 2 (['H', 'e', 'l', 'l', 'o']) = none := by simp

/-- Staged engine evaluation (`ev_hello_strong`). -/
theorem ev_hello_strong :
    rxExec false STRONG_R 1 (['H', 'e', 'l', 'l', 'o']) = none := by simp

/-- Staged engine evaluation (`ev_hello_u`). -/
theorem ev_hello_u :
    rxExec false U_R 1 (['H', 'e', 'l', 'l', 'o']) = none := by simp

/-- Staged engine evaluation (`ev_hello_del`). -/
theorem ev_hello_del :
    rxExec false DEL_R 1 (['H', 'e', 'l', 'l', 'o']) = none := by simp

/-- Staged engine evaluation (`ev_hello_inlineCode`). -/
theorem ev_hello_inlineCode :
    rxExec false INLINE_CODE_R 2 (['H', 'e', 'l', 'l', 'o']) = none := by simp

/-- Staged engine evaluation (`ev_hello_br`). -/
theorem ev_hello_br :
    rxExec false BR_R 0 (['H', 'e', 'l', 'l', 'o']) = none := by simp

/-- Staged engine evaluation (`ev_hello_text`). -/
theorem ev_hello_text :
    rxExec false TEXT_R 0 (['H', 'e', 'l', 'l', 'o']) = some (JsMatch.mk 0 (['H', 'e', 'l', 'l', 'o']) []) := by simp

/-- Staged engine evaluation (`ev_hello_sanitize`). -/
theorem ev_hello_sanitize :
    sanitizeText (['H', 'e', 'l', 'l', 'o']) = ['H', 'e', 'l', 'l', 'o'] := by simp

/-- Staged engine evaluation (`ev_s7_heading`). -/
theorem ev_s7_heading :
    rxExec false HEADING_R 2 (['[', 'a', ']', '(', 'j', 'a', 'v', 'a', 's', 'c', 'r', 'i', 'p', 't', ':', 'a', 'l', 'e', 'r', 't', '(', '1', ')', ')', '\n', '\n']) = none := by simp

/-- Staged engine evaluation (`ev_s7_nptable`). -/
theorem ev_s7_nptable :
    rxExec false NPTABLE_REGEX 3 (['[', 'a', ']', '(', 'j', 'a', 'v', 'a', 's', 'c', 'r', 'i', 'p', 't', ':', 'a', 'l', 'e', 'r', 't', '(', '1', ')', ')', '\n', '\n']) = none := by simp

/-- Staged engine evaluation (`ev_s7_lheading`). -/
theorem ev_s7_lheading :
    rxExec false LHEADING_R 2 (['[', 'a', ']', '(', 'j', 'a', 'v', 'a', 's', 'c', 'r', 'i', 'p', 't', ':', 'a', 'l', 'e', 'r', 't', '(', '1', ')', ')', '\n', '\n']) = none := by simp

/-- Staged engine evaluation (`ev_s7_hr`). -/
theorem ev_s7_hr :
    rxExec false HR_R 1 (['[', 'a', ']', '(', 'j', 'a', 'v', 'a', 's', 'c', 'r', 'i', 'p', 't', ':', 'a', 'l', 'e', 'r', 't', '(', '1', ')', ')', '\n', '\n']) = none := by simp

/-- Staged engine evaluation (`ev_s7_codeBlock`). -/
theorem ev_s7_codeBlock :
    rxExec false CODE_BLOCK_R 0 (['[', 'a', ']', '(', 'j', 'a', 'v', 'a', 's', 'c', 'r', 'i', 'p', 't', ':', 'a', 'l', 'e', 'r', 't', '(', '1', ')', ')', '\n', '\n']) = none := by simp

/-- Staged engine evaluation (`ev_s7_fence`). -/
theorem ev_s7_fence :
    rxExec false FENCE_R 3 (['[', 'a', ']', '(', 'j', 'a', 'v', 'a', 's', 'c', 'r', 'i', 'p', 't', ':', 'a', 'l', 'e', 'r', 't', '(', '1', ')', ')', '\n', '\n']) = none := by simp

/-- Staged engine evaluation (`ev_s7_blockQuote`). -/
theorem ev_s7_blockQuote :
    rxExec false BLOCK_QUOTE_R 2 (['[', 'a', ']', '(', 'j', 'a', 'v', 'a', 's', 'c', 'r', 'i', 'p', 't', ':', 'a', 'l', 'e', 'r', 't', '(', '1', ')', ')', '\n', '\n']) = none := by simp

/-- Staged engine evaluation (`ev_s7_list`). -/
theorem ev_s7_list :
    rxExec false LIST_R 2 (['[', 'a', ']', '(', 'j', 'a', 'v', 'a', 's', 'c', 'r', 'i', 'p', 't', ':', 'a', 'l', 'e', 'r', 't', '(', '1', ')', ')', '\n', '\n']) = none := by simp

/-- Staged engine evaluation (`ev_s7_def`). -/
theorem ev_s7_def :
    rxExec false DEF_R 3 (['[', 'a', ']', '(', 'j', 'a', 'v', 'a', 's', 'c', 'r', 'i', 'p', 't', ':', 'a', 'l', 'e', 'r', 't', '(', '1', ')', ')', '\n', '\n']) = none := by simp

/-- Staged engine evaluation (`ev_s7_table`). -/
theorem ev_s7_table :
    rxExec false TABLE_REGEX 3 (['[', 'a', ']', '(', 'j', 'a', 'v', 'a', 's', 'c', 'r', 'i', 'p', 't', ':', 'a', 'l', 'e', 'r', 't', '(', '1', ')', ')', '\n', '\n']) = none := by simp

/-- Staged engine evaluation (`ev_s7_newline`). -/
theorem ev_s7_newline :
    rxExec false NEWLINE_R 0 (['[', 'a', ']', '(', 'j', 'a', 'v', 'a', 's', 'c', 'r', 'i', 'p', 't', ':', 'a', 'l', 'e', 'r', 't', '(', '1', ')', ')', '\n', '\n']) = none := by simp

/-- Staged engine evaluation (`ev_s7_paragraph`). -/
theorem ev_s7_paragraph :
    rxExec false PARAGRAPH_R 1 (['[', 'a', ']', '(', 'j', 'a', 'v', 'a', 's', 'c', 'r', 'i', 'p', 't', ':', 'a', 'l', 'e', 'r', 't', '(', '1', ')', ')', '\n', '\n']) =
      some (JsMatch.mk 0 (['[', 'a', ']', '(', 'j', 'a', 'v', 'a', 's', 'c', 'r', 'i', 'p', 't', ':', 'a', 'l', 'e', 'r', 't', '(', '1', ')', ')', '\n', '\n']) [some ['[', 'a', ']', '(', 'j', 'a', 'v', 'a', 's', 'c', 'r', 'i', 'p', 't', ':', 'a', 'l', 'e', 'r', 't', '(', '1', ')', ')']]) := by simp

/-- Staged engine evaluation (`ev_s7i_escape`). -/
theorem ev_s7i_escape :
    rxExec false ESCAPE_R 1 (['[', 'a', ']', '(', 'j', 'a', 'v', 'a', 's', 'c', 'r', 'i', 'p', 't', ':', 'a', 'l', 'e', 'r', 't', '(', '1', ')', ')']) = none := by simp

/-- Staged engine evaluation (`ev_s7i_autolink`). -/
theorem ev_s7i_autolink :
    rxExec false AUTOLINK_R 1 (['[', 'a', ']', '(', 'j', 'a', 'v', 'a', 's', 'c', 'r', 'i', 'p', 't', ':', 'a', 'l', 'e', 'r', 't', '(', '1', ')', ')']) = none := by simp

/-- Staged engine evaluation (`ev_s7i_mailto`). -/
theorem ev_s7i_mailto :
    rxExec false MAILTO_R 1 (['[', 'a', ']', '(', 'j', 'a', 'v', 'a', 's', 'c', 'r', 'i', 'p', 't', ':', 'a', 'l', 'e', 'r', 't', '(', '1', ')', ')']) = none := by simp

/-- Staged engine evaluation (`ev_s7i_url`). -/
theorem ev_s7i_url :
    rxExec false URL_R 1 (['[', 'a', ']', '(', 'j', 'a', 'v', 'a', 's', 'c', 'r', 'i', 'p', 't', ':', 'a', 'l', 'e', 'r', 't', '(', '1', ')', ')']) = none := by simp

/-- Staged engine evaluation (`ev_s7i_link`). -/
theorem ev_s7i_link :
    rxExec false LINK_R 3 (['[', 'a', ']', '(', 'j', 'a', 'v', 'a', 's', 'c', 'r', 'i', 'p', 't', ':', 'a', 'l', 'e', 'r', 't', '(', '1', ')', ')']) =
      some (JsMatch.mk 0 (['[', 'a', ']', '(', 'j', 'a', 'v', 'a', 's', 'c', 'r', 'i', 'p', 't', ':', 'a', 'l', 'e', 'r', 't', '(', '1', ')', ')']) [some ['a'], some ['j', 'a', 'v', 'a', 's', 'c', 'r', 'i', 'p', 't', ':', 'a', 'l', 'e', 'r', 't', '(', '1', ')'], none]) := by simp

/-- Staged engine evaluation (`ev_a_escape`). -/
theorem ev_a_escape :
    rxExec false ESCAPE_R 1 (['a']) = none := by simp

/-- Staged engine evaluation (`ev_a_autolink`). -/
theorem ev_a_autolink :
    rxExec false AUTOLINK_R 1 (['a']) = none := by simp

/-- Staged engine evaluation (`ev_a_mailto`). -/
theorem ev_a_mailto :
    rxExec false MAILTO_R 1 (['a']) = none := by simp

/-- Staged engine evaluation (`ev_a_url`). -/
theorem ev_a_url :
    rxExec false URL_R 1 (['a']) = none := by simp

/-- Staged engine evaluation (`ev_a_link`). -/
theorem ev_a_link :
    rxExec false LINK_R 3 (['a']) = none := by simp

/-- Staged engine evaluation (`ev_a_image`). -/
theorem ev_a_image :
    rxExec false IMAGE_R 3 (['a']) = none := by simp

/-- Staged engine evaluation (`ev_a_reflink`). -/
theorem ev_a_reflink :
    rxExec false REFLINK_R 2 (['a']) = none := by simp

/-- Staged engine evaluation (`ev_a_refimage`). -/
theorem ev_a_refimage :
    rxExec false REFIMAGE_R 2 (['a']) = none := by simp

/-- Staged engine evaluation (`ev_a_em`). -/
theorem ev_a_em :
    rxExec false EM_R 2 (['a']) = none := by simp

/-- Staged engine evaluation (`ev_a_strong`). -/
theorem ev_a_strong :
    rxExec false STRONG_R 1 (['a']) = none := by simp

/-- Staged engine evaluation (`ev_a_u`). -/
theorem ev_a_u :
    rxExec false U_R 1 (['a']) = none := by simp

/-- Staged engine evaluation (`ev_a_del`). -/
theorem ev_a_del :
    rxExec false DEL_R 1 (['a']) = none := by simp

/-- Staged engine evaluation (`ev_a_inlineCode`). -/
theorem ev_a_inlineCode :
    rxExec false INLINE_CODE_R 2 (['a']) = none := by simp

/-- Staged engine evaluation (`ev_a_br`). -/
theorem ev_a_br :
    rxExec false BR_R 0 (['a']) = none := by simp

/-- Staged engine evaluation (`ev_a_text`). -/
theorem ev_a_text :
    rxExec false TEXT_R 0 (['a']) = some (JsMatch.mk 0 (['a']) []) := by simp

/-- Staged engine evaluation (`ev_a_sanitize`). -/
theorem ev_a_sanitize :
    sanitizeText (['a']) = ['a'] := by simp

/-- Staged engine evaluation (`ev_js_unescape`). -/
theorem ev_js_unescape :
    unescapeUrl (['j', 'a', 'v', 'a', 's', 'c', 'r', 'i', 'p', 't', ':', 'a', 'l', 'e', 'r', 't', '(', '1', ')']) = ['j', 'a', 'v', 'a', 's', 'c', 'r', 'i', 'p', 't', ':', 'a', 'l', 'e', 'r', 't', '(', '1', ')'] := by simp

/-- Staged engine evaluation (`ev_class_sanitize`). -/
theorem ev_class_sanitize :
    sanitizeText (['c', 'l', 'a', 's', 's']) = ['c', 'l', 'a', 's', 's'] := by simp

/-- Staged engine evaluation (`ev_paragraph_sanitize`). -/
theorem ev_paragraph_sanitize :
    sanitizeText (['p', 'a', 'r', 'a', 'g', 'r', 'a', 'p', 'h']) = ['p', 'a', 'r', 'a', 'g', 'r', 'a', 'p', 'h'] := by simp

/-- Staged engine evaluation (`ev_slash_sanitize`). -/
theorem ev_slash_sanitize :
    sanitizeText (['/']) = ['/'] := by simp

/-- Staged engine evaluation (`ev_stars_em`). -/
theorem ev_stars_em :
    rxExec false EM_R 2 (['*', '*', '*', 'a', '*', '*', '*']) =
      some (JsMatch.mk 0 (['*', '*', '*', 'a', '*', '*', '*']) [none, some ['*', '*', 'a', '*', '*']]) := by simp

/-- Staged engine evaluation (`ev_stars_strong`). -/
theorem ev_stars_strong :
    rxExec false STRONG_R 1 (['*', '*', '*', 'a', '*', '*', '*']) =
      some (JsMatch.mk 0 (['*', '*', '*', 'a', '*', '*', '*']) [some ['*', 'a', '*']]) := by simp

/-- Staged engine evaluation (`ev_stars_u`). -/
theorem ev_stars_u :
    rxExec false U_R 1 (['*', '*', '*', 'a', '*', '*', '*']) = none := by simp

/-- Staged engine evaluation (`ev_claim_implicit`). -/
theorem ev_claim_implicit :
    rxTest false CLAIM_IMPLICIT_R (['a', '\n', 'b', '\n', '\n']) = false := by simp

end EngineEval


/-! ## Claim theorems, witnesses and counterexamples -/

section ClaimEval
set_option maxHeartbeats 16000000
set_option maxRecDepth 2000

/-- Shared staged evaluation: the default block parse of the empty
string parses the appended `"\n\n"` suffix with the `newline` rule,
consuming both characters. -/
theorem nlParse_eval : (defaultBlockParse FUEL [] none).1 =
    .ok ([MDNode.mk (some "newline") none []], 2) := by
  simp [ev_nl_heading, ev_nl_nptable, ev_nl_lheading, ev_nl_hr, ev_nl_codeBlock,
    ev_nl_fence, ev_nl_blockQuote, ev_nl_list, ev_nl_def, ev_nl_table,
    ev_nl_newline, ev_lookbehind_nil, -Prod.snd_ofNat, -Prod.fst_ofNat,
    -LucasLehmer.X.ofNat_snd, -LucasLehmer.X.ofNat_fst]

/-- Shared staged evaluation: the rendered HTML of `"# Hello\n\n"`. -/
theorem helloHtml_eval : markdownToHtml FUEL "# Hello\n\n" none =
    some "<h1>Hello</h1>" := by
  simp [ev_h_heading, ev_hello_escape, ev_hello_autolink, ev_hello_mailto,
    ev_hello_url, ev_hello_link, ev_hello_image, ev_hello_reflink,
    ev_hello_refimage, ev_hello_em, ev_hello_strong, ev_hello_u, ev_hello_del,
    ev_hello_inlineCode, ev_hello_br, ev_hello_text, ev_hello_sanitize,
    ev_lookbehind_nil, -Prod.snd_ofNat, -Prod.fst_ofNat,
    -LucasLehmer.X.ofNat_snd, -LucasLehmer.X.ofNat_fst]

/-- Shared staged evaluation: the rendered HTML of
`"[a](javascript:alert(1))"`. -/
theorem linkHtml_eval : markdownToHtml FUEL "[a](javascript:alert(1))" none =
    some "<div class=\"paragraph\"><a>a</a></div>" := by
  simp [ev_s7_heading, ev_s7_nptable, ev_s7_lheading, ev_s7_hr, ev_s7_codeBlock,
    ev_s7_fence, ev_s7_blockQuote, ev_s7_list, ev_s7_def, ev_s7_table,
    ev_s7_newline, ev_s7_paragraph, ev_s7i_escape, ev_s7i_autolink,
    ev_s7i_mailto, ev_s7i_url, ev_s7i_link, ev_a_escape, ev_a_autolink,
    ev_a_mailto, ev_a_url, ev_a_link, ev_a_image, ev_a_reflink, ev_a_refimage,
    ev_a_em, ev_a_strong, ev_a_u, ev_a_del, ev_a_inlineCode, ev_a_br,
    ev_a_text, ev_a_sanitize, ev_js_unescape, ev_class_sanitize,
    ev_paragraph_sanitize, ev_lookbehind_nil, -Prod.snd_ofNat, -Prod.fst_ofNat,
    -LucasLehmer.X.ofNat_snd, -LucasLehmer.X.ofNat_fst]

/-- C2 (corrected): with the default block entry point (inline scope
forced off, `disableAutoBlockNewlines` unset), a successful parse
consumes exactly the length of `preprocess(source + "\n\n")` — the
suffix is appended before preprocessing. -/
theorem claim_C2_block_consumption (fuel : Nat) (s : List Char)
    (st? : Option MDState) (ns : List MDNode) (n : Nat)
    (hd : (st?.getD {}).disableAutoBlockNewlines = false)
    (h : (defaultBlockParse fuel s st?).1 = .ok (ns, n)) :
    n = (preprocess (s ++ '\n' :: '\n' :: [])).length := by
  rcases hp : defaultBlockParse fuel s st? with ⟨r, stf⟩
  rw [hp] at h
  simp only at h
  exact blockParse_consumes fuel s st? ns n stf hd (by rw [hp, h])

/-- C2 witness: parsing the empty source consumes 2 characters, the
length of `preprocess("" + "\n\n")`. -/
theorem claim_C2_witness :
    (2 : Nat) = (preprocess (([] : List Char) ++ '\n' :: '\n' :: [])).length :=
  claim_C2_block_consumption FUEL [] none [MDNode.mk (some "newline") none []] 2
    rfl nlParse_eval

/-- C2 counterexample: for the source `"\r"` the parse consumes 2
characters (`preprocess("\r\n\n") = "\n\n"`), while the claim's
`preprocess("\r") + "\n\n"` has length 3. -/
theorem claim_C2_counterexample :
    (defaultBlockParse FUEL ['\r'] none).1 =
      .ok ([MDNode.mk (some "newline") none []], 2) ∧
    (preprocess ['\r'] ++ '\n' :: '\n' :: []).length = 3 ∧ (2 : Nat) ≠ 3 := by
  refine ⟨?_, by simp, by omega⟩
  simp [ev_nl_heading, ev_nl_nptable, ev_nl_lheading, ev_nl_hr, ev_nl_codeBlock,
    ev_nl_fence, ev_nl_blockQuote, ev_nl_list, ev_nl_def, ev_nl_table,
    ev_nl_newline, ev_lookbehind_nil, -Prod.snd_ofNat, -Prod.fst_ofNat,
    -LucasLehmer.X.ofNat_snd, -LucasLehmer.X.ofNat_fst]

/-- C3 (corrected): for every rule table with non-empty rule names whose
parse functions return only single-node results that are untyped or
carry a non-empty type, every node the dispatcher returns has a
non-empty string `type` — an untyped single-node result is typed with
the rule's name (array results, by contrast, are spliced in unchanged;
see the counterexample). -/
theorem claim_C3_typed_nodes (rules : List (String × PRule))
    (hr : ∀ e ∈ rules, e.1 ≠ "" ∧ ∀ cap cb st r st',
        e.2.parsef cap cb st = (.ok r, st') → ∃ nd, r = .one nd ∧
          (nd.typ = none ∨ ∃ t, nd.typ = some t ∧ t ≠ ""))
    (fuel : Nat) (src : List Char) (st : MDState) (ns : List MDNode) (n : Nat)
    (h : (nestedParse rules fuel src st).1 = .ok (ns, n)) :
    ns.all typedOk = true := by
  rcases hp : nestedParse rules fuel src st with ⟨r, st2⟩
  rw [hp] at h
  simp only at h
  exact nestedParse_typed rules hr fuel src st ns n st2 (by rw [hp, h])

/-- C3 witness: a one-rule table returning an untyped single node gets
the rule name `"t"` as the node type. -/
theorem claim_C3_witness :
    ([MDNode.mk (some "t") none []].all typedOk) = true :=
  claim_C3_typed_nodes [oneRule]
    (by
      intro e he
      rcases List.mem_singleton.mp he with rfl
      refine ⟨by simp [oneRule], ?_⟩
      intro cap cb st r st' hp
      simp only [oneRule, Prod.mk.injEq, Except.ok.injEq] at hp
      exact ⟨MDNode.mk none none [], hp.1.symm, .inl rfl⟩)
    9 ['x'] {} [MDNode.mk (some "t") none []] 1
    (by simp [oneRule, -Prod.snd_ofNat, -Prod.fst_ofNat,
      -LucasLehmer.X.ofNat_snd, -LucasLehmer.X.ofNat_fst])

/-- C3 counterexample: a rule whose parse returns an array result
containing an untyped node leaves that node untyped in the dispatcher's
output, refuting the claim for arbitrary rule tables. -/
theorem claim_C3_counterexample :
    (nestedParse [arrRule] 9 ['x'] {}).1 = .ok ([MDNode.mk none none []], 1) ∧
    typedOk (MDNode.mk none none []) = false := by
  constructor
  · simp [arrRule, -Prod.snd_ofNat, -Prod.fst_ofNat,
      -LucasLehmer.X.ofNat_snd, -LucasLehmer.X.ofNat_fst]
  · rfl

/-- C4 witness: `sanitizeUrl` rejects a literal `javascript:` URL. -/
theorem claim_C4_witness :
    sanitizeUrl (some "javascript:alert(1)".data) = none :=
  sanitizeUrl_charact.2.2.1 "javascript:alert(1)".data
    "javascript:alert(1)".data (by rfl) (by decide)

/-- C5 counterexample: `sanitizeText` leaves `/` unchanged although the
seven-entry `SANITIZE_TEXT_CODES` table maps it to `&#x2F;` — the claim
that all seven characters are replaced is false. -/
theorem claim_C5_counterexample :
    sanitizeText ['/'] = ['/'] ∧ SANITIZE_TEXT_CODES '/' = "&#x2F;".data ∧
    (['/'] : List Char) ≠ "&#x2F;".data := by
  exact ⟨ev_slash_sanitize, by decide, by decide⟩

/-- C6 (corrected): `markdownToHtml "# Hello\n\n"` returns exactly
`"<h1>Hello</h1>"`: the heading regex consumes every trailing newline,
so no `newline` node and no trailing `"\n\n"` is produced. -/
theorem claim_C6_heading_html : markdownToHtml FUEL "# Hello\n\n" none =
    some "<h1>Hello</h1>" := helloHtml_eval

/-- C6 counterexample: the output of `markdownToHtml "# Hello\n\n"` is
`"<h1>Hello</h1>"`, not the claimed `"<h1>Hello</h1>\n\n"`. -/
theorem claim_C6_counterexample :
    markdownToHtml FUEL "# Hello\n\n" none = some "<h1>Hello</h1>" ∧
    "<h1>Hello</h1>" ≠ "<h1>Hello</h1>\n\n" :=
  ⟨helloHtml_eval, by decide⟩

/-- C7 (corrected): `markdownToHtml "[a](javascript:alert(1))"` renders
the link as an anchor with no `href` attribute at all — the
`javascript:` target sanitizes to null, and `htmlTag` drops falsy
attributes. -/
theorem claim_C7_link_html :
    markdownToHtml FUEL "[a](javascript:alert(1))" none =
      some "<div class=\"paragraph\"><a>a</a></div>" := linkHtml_eval

/-- C7 counterexample: the rendered output contains no `href` substring
at all, so the anchor does not carry `href=""` as claimed. -/
theorem claim_C7_counterexample :
    markdownToHtml FUEL "[a](javascript:alert(1))" none =
      some "<div class=\"paragraph\"><a>a</a></div>" ∧
    hasSub "<div class=\"paragraph\"><a>a</a></div>".data "href".data = false :=
  ⟨linkHtml_eval, by decide⟩

/-- C8 (corrected): `defaultImplicitParse` sets `state.inline` to the
negation of testing `BLOCK_END_R` (`\n{2,}$`) against the source and
parses with the default rules; that test succeeds exactly when the
source ends with two consecutive newlines. -/
theorem claim_C8_implicit_inline :
    (∀ fuel source st?, defaultImplicitParse fuel source st? =
      outerParse defaultRuleList fuel source
        (some { st?.getD {} with inline := !rxTest false BLOCK_END_R source })) ∧
    (∀ s : List Char, rxTest false BLOCK_END_R s = true ↔
      2 ≤ s.length ∧ s.get? (s.length - 2) = some '\n' ∧
        s.get? (s.length - 1) = some '\n') :=
  ⟨fun _ _ _ => rfl, blockEnd_test⟩

/-- C8 counterexample: on the source `"a\nb\n\n"` the claimed regex
`^.*\n{2,}$` does not match, yet the program's `BLOCK_END_R` test does,
and `defaultImplicitParse` sets `state.inline` to `false` where the
claim predicts `true`. -/
theorem claim_C8_counterexample :
    rxTest false CLAIM_IMPLICIT_R (['a', '\n', 'b', '\n', '\n']) = false ∧
    implicitIsBlock (['a', '\n', 'b', '\n', '\n']) = true ∧
    (defaultImplicitParse 0 (['a', '\n', 'b', '\n', '\n']) none).2.inline = false := by
  have hb : rxTest false BLOCK_END_R ['a', '\n', 'b', '\n', '\n'] = true := by
    rw [blockEnd_test]
    decide
  refine ⟨ev_claim_implicit, by rw [implicitIsBlock]; exact hb, ?_⟩
  simp [defaultImplicitParse, defaultRawParse, outerParse, nestedParse, hb]

/-- C10: parsing the empty string in block scope yields exactly one
node, of type `newline` (the appended `"\n\n"` suffix is consumed by
the `newline` rule), and `markdownToHtml ""` returns `"\n"`. -/
theorem claim_C10_empty_parse :
    (defaultBlockParse FUEL [] none).1 =
      .ok ([MDNode.mk (some "newline") none []], 2) ∧
    markdownToHtml FUEL "" none = some "\n" := by
  refine ⟨nlParse_eval, ?_⟩
  simp [ev_nl_heading, ev_nl_nptable, ev_nl_lheading, ev_nl_hr, ev_nl_codeBlock,
    ev_nl_fence, ev_nl_blockQuote, ev_nl_list, ev_nl_def, ev_nl_table,
    ev_nl_newline, ev_lookbehind_nil, -Prod.snd_ofNat, -Prod.fst_ofNat,
    -LucasLehmer.X.ofNat_snd, -LucasLehmer.X.ofNat_fst]

/-- C1 witness: on the source `"***a***"` (inline scope) `em` and
`strong` both capture all seven characters and `u` does not match, so
the dispatcher picks `em` — the tie goes to `em` by its `+0.2` bias. -/
theorem claim_C1_witness :
    (scanRules ['*', '*', '*', 'a', '*', '*', '*'] { inline := true } []
      [emRule, strongRule, uRule] none).map Best.name = some "em" := by
  rw [emStrongU_selection ['*', '*', '*', 'a', '*', '*', '*'] []
    { inline := true } rfl _ _ _ ev_stars_em ev_stars_strong ev_stars_u]
  simp [emStrongUPick]

end ClaimEval

end SM
